import Mathlib

/-!
Shallow embedding of the `vee` form render/bind engine (render.go, bind.go,
tags.go, types.go) and proofs about the claims of its specification.

Modelling conventions:
* Go `int`/`int64` fields are carried as `Int` (both are 64-bit here); the
  binder's `strconv.ParseInt`/`Atoi` range check against int64 bounds is
  modelled explicitly.
* Go `float64` fields are carried as `Rat`, idealized as the exact decimal
  value; decimal formatting/parsing is exact on this carrier.
* `time.Time` is carried as a wall-clock structure in UTC (the package
  formats/parses fixed layouts without zone information except the hidden
  ISO form, which we model for UTC).
* `time.Duration` is carried as `Int` (nanoseconds).
* Go maps (`FieldConfig.Attributes`, form data) are carried as association
  lists with insert-or-replace update; the iteration order of
  `validateChoicesChosen`'s base-name maps (random in Go) is fixed to
  first-declaration order, a deterministic refinement.
* A record is a list of exported fields in declaration order.
-/

namespace Vee

/-! ## String utilities -/

/-- Character-level version of render.go's `escapeHTML`, which applies
`strings.ReplaceAll` for `&`, `<`, `>`, `"` in that order; since each
replacement string introduces no character that a later pass rewrites
except the `&` already handled first, the sequential passes act
character-wise. -/
def escChar (c : Char) : List Char :=
  if c = '&' then '&' :: 'a' :: 'm' :: 'p' :: [';']
  else if c = '<' then '&' :: 'l' :: 't' :: [';']
  else if c = '>' then '&' :: 'g' :: 't' :: [';']
  else if c = '"' then '&' :: 'q' :: 'u' :: 'o' :: 't' :: [';']
  else [c]

/-- render.go `escapeHTML`. -/
def escapeHTML (s : String) : String := String.mk (s.data.map escChar).flatten

/-- Substring test on character lists (used to state "the error message
contains ..." and "the markup contains ..."). -/
def listHasSub (needle : List Char) : List Char → Bool
  | [] => needle.isEmpty
  | c :: rest => needle.isPrefixOf (c :: rest) || listHasSub needle rest

/-- String `hay` contains `needle` as a substring. -/
def hasSub (hay needle : String) : Bool := listHasSub needle.data hay.data

/-- `strings.HasSuffix` (structurally recursive so that proofs can
evaluate it; same semantics as `String.endsWith`). -/
def strEndsWith (s suffix : String) : Bool := suffix.data.isSuffixOf s.data

/-- `strings.HasPrefix`. -/
def strStartsWith (s p : String) : Bool := p.data.isPrefixOf s.data

/-- `strings.Contains(s, string(c))` for a single character. -/
def strContains (s : String) (c : Char) : Bool := s.data.any fun d => d == c

/-- `strings.TrimSpace` (ASCII whitespace; the tags here contain no other
space characters). -/
def trimChars (l : List Char) : List Char :=
  ((l.dropWhile Char.isWhitespace).reverse.dropWhile Char.isWhitespace).reverse

def strTrim (s : String) : String := String.mk (trimChars s.data)

/-- `strings.Split(s, ",")` on character lists. -/
def splitOnComma : List Char → List (List Char)
  | [] => [[]]
  | d :: rest =>
    match splitOnComma rest with
    | [] => [[]]
    | cur :: rs => if d = ',' then [] :: cur :: rs else (d :: cur) :: rs

/-- `strings.Split(s, ",")`. -/
def strSplitComma (s : String) : List String := (splitOnComma s.data).map String.mk

/-- Digit extraction by repeated division, with enough fuel (structural, so
that proofs can evaluate it). -/
def natDecimalAux : Nat → Nat → List Char
  | 0, _ => []
  | fuel + 1, n => if n = 0 then [] else natDecimalAux fuel (n / 10) ++ [Nat.digitChar (n % 10)]

/-- Decimal digit characters of a natural number, most significant first
(the decimal notation that Go's `%d`/`strconv` use). -/
def natDecimal (n : Nat) : List Char :=
  if n = 0 then ['0'] else natDecimalAux n n

/-- Decimal string of a natural number (Go `%d`). -/
def formatNat (n : Nat) : String := String.mk (natDecimal n)

/-- Decimal string of an integer (Go `%d` on int64). -/
def formatInt (i : Int) : String :=
  if i < 0 then "-" ++ formatNat i.natAbs else formatNat i.natAbs

/-- Numeric value of a decimal digit character. -/
def charDigit (c : Char) : Nat := c.toNat - 48

/-- Accumulating decimal parse; fails on any non-digit character. -/
def parseDigitsAcc (acc : Nat) : List Char → Option Nat
  | [] => some acc
  | c :: cs => if c.isDigit then parseDigitsAcc (acc * 10 + charDigit c) cs else none

/-- Parse a nonempty all-digit character list as a natural number. -/
def parseNatDec : List Char → Option Nat
  | [] => none
  | c :: cs => parseDigitsAcc 0 (c :: cs)

def int64Max : Int := 9223372036854775807
def int64Min : Int := -9223372036854775808

/-- Strip one leading sign character. -/
def stripSign (l : List Char) : Bool × List Char :=
  match l with
  | [] => (false, [])
  | c :: r => if c = '+' then (false, r) else if c = '-' then (true, r) else (false, c :: r)

/-- bind.go uses `strconv.ParseInt(s, 10, 64)` (and `strconv.Atoi`, identical
on a 64-bit platform): optional single sign, nonempty digit run, int64
range check. -/
def parseGoInt (s : String) : Option Int :=
  let (neg, rest) := stripSign s.data
  match parseNatDec rest with
  | none => none
  | some n =>
    let v : Int := if neg then -(n : Int) else (n : Int)
    if v < int64Min ∨ int64Max < v then none else some v

/-- Split a character list at the first exponent marker `e`/`E`. -/
def breakAtExp : List Char → List Char × Option (List Char)
  | [] => ([], none)
  | c :: rest =>
    if c = 'e' ∨ c = 'E' then ([], some rest)
    else
      let (m, e) := breakAtExp rest
      (c :: m, e)

/-- Split a character list at the first `.` (mantissa integer/fraction
parts); `none` when there is no point. -/
def breakAtPoint : List Char → List Char × Option (List Char)
  | [] => ([], none)
  | c :: rest =>
    if c = '.' then ([], some rest)
    else
      let (m, e) := breakAtPoint rest
      (c :: m, e)

def allDigits (l : List Char) : Bool := l.all Char.isDigit

/-- Value of a digit list read most-significant-first. -/
def digitsVal (l : List Char) : Nat := l.foldl (fun acc c => acc * 10 + charDigit c) 0

/-- Model of `strconv.ParseFloat(s, 64)` on the exact-decimal carrier:
sign, decimal mantissa (digits with an optional point, at least one digit),
optional decimal exponent. The binary rounding of the real `ParseFloat`,
and its `Inf`/`NaN`/hex/underscore forms, are outside the idealized
carrier. -/
def parseFloatRat (s : String) : Option Rat :=
  let (neg, rest) := stripSign s.data
  let (mant, exp?) := breakAtExp rest
  let (intPart, frac?) := breakAtPoint mant
  let frac := frac?.getD []
  if ¬ allDigits intPart ∨ ¬ allDigits frac ∨ (intPart.isEmpty ∧ frac.isEmpty) then none
  else
    let base : Rat := (digitsVal intPart : Rat) + (digitsVal frac : Rat) / ((10 : Rat) ^ frac.length)
    let signed : Rat := if neg then -base else base
    match exp? with
    | none => some signed
    | some el =>
      let (eneg, edigits) := stripSign el
      if edigits.isEmpty ∨ ¬ allDigits edigits then none
      else
        let e := digitsVal edigits
        some (if eneg then signed / (10 : Rat) ^ e else signed * (10 : Rat) ^ e)

/-- Truncation toward zero, as Go's float-to-integer conversion
(`time.Duration(floatVal)`). -/
def truncRat (q : Rat) : Int := q.num.tdiv (q.den : Int)

/-- Least number of decimal places (up to 40) representing the rational
exactly, if any. -/
def ratDecPlaces (q : Rat) : Option Nat :=
  (List.range 41).find? fun k => (q * (10 : Rat) ^ k).den = 1

/-- Model of Go's `%g` on the exact-decimal carrier: integers print without
a point, other decimal rationals with the least number of fraction digits
(Go's shortest-round-trip formatting restricted to this carrier; the
large-exponent scientific switch of `%g` is outside the carrier's use
here). -/
def formatFloatG (q : Rat) : String :=
  if q.den = 1 then formatInt q.num
  else
    match ratDecPlaces q with
    | some k =>
      let n := (q * (10 : Rat) ^ k).num.natAbs
      let ds := natDecimal n
      let ds := if ds.length < k + 1 then List.replicate (k + 1 - ds.length) '0' ++ ds else ds
      (if q < 0 then "-" else "") ++ String.mk (ds.take (ds.length - k)) ++ "." ++
        String.mk (ds.drop (ds.length - k))
    | none => "(nondecimal)"

/-! ## Data model -/

/-- The scalar field kinds the engine supports. -/
inductive Kind
  | kstr
  | kint
  | kfloat
  | kbool
  | ktime
  | kdur
deriving DecidableEq, Repr

/-- Wall-clock time in UTC, the carrier for `time.Time` here. Go's zero
`time.Time` is January 1 of year 1, 00:00:00 UTC. -/
structure GoTime where
  year : Nat
  month : Nat
  day : Nat
  hour : Nat
  minute : Nat
  sec : Nat
  nsec : Nat
deriving DecidableEq, Repr

def zeroTime : GoTime := ⟨1, 1, 1, 0, 0, 0, 0⟩

/-- A scalar field value. -/
inductive Value
  | vstr (s : String)
  | vint (n : Int)
  | vfloat (q : Rat)
  | vbool (b : Bool)
  | vtime (t : GoTime)
  | vdur (d : Int)
deriving DecidableEq, Repr

def Value.kind : Value → Kind
  | .vstr _ => .kstr
  | .vint _ => .kint
  | .vfloat _ => .kfloat
  | .vbool _ => .kbool
  | .vtime _ => .ktime
  | .vdur _ => .kdur

/-- The Go zero value of each scalar kind. -/
def Kind.zero : Kind → Value
  | .kstr => .vstr ""
  | .kint => .vint 0
  | .kfloat => .vfloat 0
  | .kbool => .vbool false
  | .ktime => .vtime zeroTime
  | .kdur => .vdur 0

/-- A field's stored content: a plain scalar, a pointer-optional scalar
(`none` is a nil pointer), a `[]string`, or an `[]int`. -/
inductive GoVal
  | base (v : Value)
  | ptr (k : Kind) (v : Option Value)
  | strSlice (xs : List String)
  | intSlice (xs : List Int)
deriving DecidableEq, Repr

/-- The scalar kind underlying a base or pointer field, if any. -/
def GoVal.kind? : GoVal → Option Kind
  | .base v => some v.kind
  | .ptr k _ => some k
  | _ => none

/-- One exported struct field: declared name, `vee` tag, `css` tag, and
current value. Unexported fields are skipped by every Go loop in the
package and are not modelled. -/
structure Field where
  name : String
  tag : String
  cssTag : String
  val : GoVal
deriving DecidableEq, Repr

/-- External form data: string-keyed multimap, as `map[string][]string`. -/
def FormData := List (String × List String)

def lookupForm : List (String × List String) → String → Option (List String)
  | [], _ => none
  | (k, vs) :: rest, key => if k = key then some vs else lookupForm rest key

/-- types.go `RenderOption` (already consolidated). -/
structure RenderOption where
  DefaultInputCSS : String := ""
  FormID : String := ""
  FormCSS : String := ""
  FormMethod : String := ""
  FormAction : String := ""
deriving DecidableEq, Repr

/-! ## Metadata parser (tags.go) -/

/-- tags.go `FieldConfig`; `Attributes` is an insertion-ordered map. -/
structure FieldConfig where
  Name : String
  Skip : Bool
  NoLabel : Bool
  Hidden : Bool
  Attributes : List (String × String)
deriving DecidableEq, Repr

def getAttr : List (String × String) → String → Option String
  | [], _ => none
  | (k, v) :: rest, key => if k = key then some v else getAttr rest key

/-- Map update with replace-in-place semantics (keys stay unique). -/
def insertAttr : List (String × String) → String → String → List (String × String)
  | [], k, v => [(k, v)]
  | (k', v') :: rest, k, v =>
    if k' = k then (k, v) :: rest else (k', v') :: insertAttr rest k v

/-- Modelled from the spec: the snake_case conversion of the external
`strcase.ToSnake` dependency (not part of this repository's sources).
Per the spec, a word boundary is inserted before every uppercase letter
unless it is preceded by an uppercase letter and followed by another
uppercase letter or the end of the string; all letters are lowercased. -/
def toSnakeGo : Option Char → List Char → List Char
  | _, [] => []
  | prev, c :: rest =>
    let prevUpper := match prev with
      | some p => p.isUpper
      | none => false
    let nextUpperOrEnd := match rest with
      | [] => true
      | d :: _ => d.isUpper
    let boundary := c.isUpper && prev.isSome && !(prevUpper && nextUpperOrEnd)
    (if boundary then ['_', c.toLower] else [c.toLower]) ++ toSnakeGo (some c) rest

/-- Modelled from the spec: `strcase.ToSnake`. -/
def toSnake (s : String) : String := String.mk (toSnakeGo none s.data)

/-- tags.go: strip one surrounding pair of single quotes from an attribute
value. -/
def stripQuotes (v : String) : String :=
  let l := v.data
  if 2 ≤ l.length ∧ l.head? = some '\'' ∧ l.getLast? = some '\'' then
    String.mk (l.drop 1).dropLast
  else v

/-- Split at the first `:` (Go `strings.SplitN(part, ":", 2)`); assumes the
part contains a colon. -/
def splitColon : List Char → List Char × List Char
  | [] => ([], [])
  | c :: rest =>
    if c = ':' then ([], rest)
    else
      let (k, v) := splitColon rest
      (c :: k, v)

/-- One iteration of the tag-segment loop of `parseVeeTag`. -/
def applyTagPart (cfg : FieldConfig) (rawPart : String) : FieldConfig :=
  let part := strTrim rawPart
  if part = "" then cfg
  else if strContains part ':' then
    let (k, v) := splitColon part.data
    let key := strTrim (String.mk k)
    let value := stripQuotes (strTrim (String.mk v))
    { cfg with Attributes := insertAttr cfg.Attributes key value }
  else if part = "nolabel" then { cfg with NoLabel := true }
  else if part = "hidden" then { cfg with Hidden := true }
  else { cfg with Attributes := insertAttr cfg.Attributes part "" }

/-- tags.go `parseVeeTag`. -/
def parseVeeTag (tag fieldName : String) : FieldConfig :=
  if tag = "" then ⟨toSnake fieldName, false, false, false, []⟩
  else if tag = "-" then ⟨"", true, false, false, []⟩
  else
    let parts := strSplitComma tag
    let (name0, rest) :=
      match parts with
      | [] => (toSnake fieldName, parts)
      | p :: ps => if strStartsWith p "$" then (p.drop 1, ps) else (toSnake fieldName, parts)
    rest.foldl applyTagPart ⟨name0, false, false, false, []⟩

/-! ## Time and duration formatting/parsing -/

/-- Resolution of the `type` attribute for a temporal field (render.go and
bind.go agree): only `date`, `time`, `datetime-local` are honored, default
`datetime-local`. -/
def timeInputType (cfg : FieldConfig) : String :=
  match getAttr cfg.Attributes "type" with
  | some "date" => "date"
  | some "time" => "time"
  | some "datetime-local" => "datetime-local"
  | _ => "datetime-local"

def pad2 (n : Nat) : String := if n < 10 then "0" ++ formatNat n else formatNat n

def pad4 (n : Nat) : String :=
  if n < 10 then "000" ++ formatNat n
  else if n < 100 then "00" ++ formatNat n
  else if n < 1000 then "0" ++ formatNat n
  else formatNat n

/-- Go layout `2006-01-02`. -/
def formatDateVal (t : GoTime) : String :=
  pad4 t.year ++ "-" ++ pad2 t.month ++ "-" ++ pad2 t.day

/-- Go layout `15:04`. -/
def formatClockVal (t : GoTime) : String := pad2 t.hour ++ ":" ++ pad2 t.minute

/-- The `value` string of a temporal control for a given input type
(render.go's three `timeVal.Format` calls). -/
def formatTimeInput (ty : String) (t : GoTime) : String :=
  if ty = "date" then formatDateVal t
  else if ty = "time" then formatClockVal t
  else formatDateVal t ++ "T" ++ formatClockVal t

/-- Go layout `2006-01-02T15:04:05Z07:00` for a UTC time (hidden fields). -/
def formatTimeISO (t : GoTime) : String :=
  formatDateVal t ++ "T" ++ pad2 t.hour ++ ":" ++ pad2 t.minute ++ ":" ++ pad2 t.sec ++ "Z"

def isLeapYear (y : Nat) : Bool := y % 4 = 0 && (y % 100 ≠ 0 || y % 400 = 0)

def daysInMonth (y m : Nat) : Nat :=
  if m = 2 then (if isLeapYear y then 29 else 28)
  else if m = 4 ∨ m = 6 ∨ m = 9 ∨ m = 11 then 30
  else 31

/-- Exactly two digits. -/
def parse2 : List Char → Option (Nat × List Char)
  | a :: b :: rest =>
    if a.isDigit && b.isDigit then some (charDigit a * 10 + charDigit b, rest) else none
  | _ => none

/-- Exactly four digits. -/
def parse4 : List Char → Option (Nat × List Char)
  | a :: b :: c :: d :: rest =>
    if a.isDigit && b.isDigit && c.isDigit && d.isDigit then
      some (charDigit a * 1000 + charDigit b * 100 + charDigit c * 10 + charDigit d, rest)
    else none
  | _ => none

def expectCh (c : Char) : List Char → Option (List Char)
  | d :: rest => if d = c then some rest else none
  | [] => none

/-- Parse `YYYY-MM-DD`, with `time.Parse`'s component range checks. -/
def parseDatePart (l : List Char) : Option (Nat × Nat × Nat × List Char) := do
  let (y, l) ← parse4 l
  let l ← expectCh '-' l
  let (mo, l) ← parse2 l
  let l ← expectCh '-' l
  let (d, l) ← parse2 l
  if 1 ≤ mo ∧ mo ≤ 12 ∧ 1 ≤ d ∧ d ≤ daysInMonth y mo then some (y, mo, d, l) else none

/-- Parse `HH:MM`, with range checks. -/
def parseClockPart (l : List Char) : Option (Nat × Nat × List Char) := do
  let (h, l) ← parse2 l
  let l ← expectCh ':' l
  let (mi, l) ← parse2 l
  if h ≤ 23 ∧ mi ≤ 59 then some (h, mi, l) else none

/-- bind.go's `time.Parse` on the three fixed layouts. A layout with no date
yields Go's date defaults: January 1 of year 0. -/
def parseGoTime (ty : String) (s : String) : Option GoTime :=
  if ty = "date" then
    match parseDatePart s.data with
    | some (y, mo, d, []) => some ⟨y, mo, d, 0, 0, 0, 0⟩
    | _ => none
  else if ty = "time" then
    match parseClockPart s.data with
    | some (h, mi, []) => some ⟨0, 1, 1, h, mi, 0, 0⟩
    | _ => none
  else
    match parseDatePart s.data with
    | some (y, mo, d, rest) =>
      match expectCh 'T' rest with
      | some rest2 =>
        match parseClockPart rest2 with
        | some (h, mi, []) => some ⟨y, mo, d, h, mi, 0, 0⟩
        | _ => none
      | none => none
    | _ => none

/-- The component ranges that both Go's `time.Date` normal form and its
`Parse` checks keep; every `GoTime` this model constructs from in-range
data satisfies it. -/
def validTime (t : GoTime) : Prop :=
  1 ≤ t.month ∧ t.month ≤ 12 ∧ 1 ≤ t.day ∧ t.day ≤ daysInMonth t.year t.month ∧
    t.hour ≤ 23 ∧ t.minute ≤ 59 ∧ t.sec ≤ 59 ∧ t.nsec < 1000000000

instance (t : GoTime) : Decidable (validTime t) := by
  rw [validTime]; infer_instance

/-- Resolution of the `units` attribute for a duration field: only `ms`,
`s`, `m`, `h` honored, default `s`. -/
def durUnits (cfg : FieldConfig) : String :=
  match getAttr cfg.Attributes "units" with
  | some "ms" => "ms"
  | some "s" => "s"
  | some "m" => "m"
  | some "h" => "h"
  | _ => "s"

def unitNanos (u : String) : Int :=
  if u = "ms" then 1000000
  else if u = "m" then 60000000000
  else if u = "h" then 3600000000000
  else 1000000000

/-- render.go's duration `value`: `float64(durationVal / unit)` printed with
`%g`. The Go division is int64 division (truncation toward zero), and the
quotient of an int64 nanosecond count by any of the four units is below
2^53, where `%g` prints the plain decimal integer. -/
def formatDurVal (d : Int) (u : String) : String := formatInt (d.tdiv (unitNanos u))

/-- The integer part (truncation toward zero) of the decimal number a
string denotes, under exactly `parseFloatRat`'s grammar: this is
`truncRat` of the parsed rational, computed in integer arithmetic (kept
free of `Rat` operations so that proofs can evaluate it). -/
def parseDecTrunc (s : String) : Option Int :=
  let (neg, rest) := stripSign s.data
  let (mant, exp?) := breakAtExp rest
  let (intPart, frac?) := breakAtPoint mant
  let frac := frac?.getD []
  if ¬ allDigits intPart ∨ ¬ allDigits frac ∨ (intPart.isEmpty ∧ frac.isEmpty) then none
  else
    let scaled : Nat := digitsVal intPart * 10 ^ frac.length + digitsVal frac
    let k := frac.length
    let finish : Nat → Int := fun mag => if neg then -(mag : Int) else (mag : Int)
    match exp? with
    | none => some (finish (digitsVal intPart))
    | some el =>
      let (eneg, edigits) := stripSign el
      if edigits.isEmpty ∨ ¬ allDigits edigits then none
      else
        let e := digitsVal edigits
        if eneg then some (finish (scaled / 10 ^ (k + e)))
        else if k ≤ e then some (finish (scaled * 10 ^ (e - k)))
        else some (finish (scaled / 10 ^ (k - e)))

/-- bind.go's duration parse: `strconv.ParseFloat`, then
`time.Duration(floatVal) * unit` (truncate toward zero, then scale by the
unit). -/
def parseGoDuration (cfg : FieldConfig) (s : String) : Option Int :=
  match parseDecTrunc s with
  | none => none
  | some q => some (q * unitNanos (durUnits cfg))

/-! ## Choices/Chosen validation (render.go `validateChoicesChosen`) -/

/-- Field classification by declared-name suffix; render.go and bind.go
check `Choices` first, then `Chosen`. -/
inductive FClass
  | choices (base : String)
  | chosen (base : String)
  | normal
deriving DecidableEq, Repr

def classifyName (n : String) : FClass :=
  if strEndsWith n "Choices" then .choices (n.dropRight 7)
  else if strEndsWith n "Chosen" then .chosen (n.dropRight 6)
  else .normal

/-- Display of `reflect.Kind` for the values the model carries (used in the
"must be a slice type, got %s" message). -/
def goKindStr : GoVal → String
  | .base (.vstr _) => "string"
  | .base (.vint _) => "int"
  | .base (.vfloat _) => "float64"
  | .base (.vbool _) => "bool"
  | .base (.vtime _) => "struct"
  | .base (.vdur _) => "int64"
  | .ptr _ _ => "ptr"
  | .strSlice _ => "slice"
  | .intSlice _ => "slice"

/-- Display of a base scalar kind's `reflect.Type`. -/
def kindTypeStr : Kind → String
  | .kstr => "string"
  | .kint => "int"
  | .kfloat => "float64"
  | .kbool => "bool"
  | .ktime => "time.Time"
  | .kdur => "time.Duration"

/-- Display of `reflect.Type` for the values the model carries (used in the
"must be int or []int, got %s" message). -/
def goTypeStr : GoVal → String
  | .base v => kindTypeStr v.kind
  | .ptr k _ => "*" ++ kindTypeStr k
  | .strSlice _ => "[]string"
  | .intSlice _ => "[]int"

/-- A validated pair, as render.go's `ChoicesChosenPair`: the display
strings of the choice slice, the chosen value, and the multi-select flag. -/
structure CCPair where
  choicesName : String
  chosenName : String
  choices : List String
  chosenVal : GoVal
  isMulti : Bool
deriving DecidableEq, Repr

/-- Fields whose declared name ends in `Choices`, keyed by base name, in
declaration order (Go collects them into a map with random iteration
order; first-declaration order is a deterministic refinement). -/
def collectChoices (rec : List Field) : List (String × Field) :=
  rec.filterMap fun f =>
    match classifyName f.name with
    | .choices b => some (b, f)
    | _ => none

def collectChosen (rec : List Field) : List (String × Field) :=
  rec.filterMap fun f =>
    match classifyName f.name with
    | .chosen b => some (b, f)
    | _ => none

def lookupBase : List (String × Field) → String → Option Field
  | [], _ => none
  | (b, f) :: rest, key => if b = key then some f else lookupBase rest key

/-- Display strings of a choice slice: `reflect.Value.String()` of each
element (`"<int Value>"` for a non-string element, faithful to reflect). -/
def choiceStrings : GoVal → Option (List String)
  | .strSlice xs => some xs
  | .intSlice xs => some (xs.map fun _ => "<int Value>")
  | _ => none

def msgNeedsChosen (f : Field) (b : String) : String :=
  "vee: field '" ++ f.name ++ "' requires corresponding '" ++ b ++ "Chosen' field"

def msgNeedsChoices (f : Field) (b : String) : String :=
  "vee: field '" ++ f.name ++ "' requires corresponding '" ++ b ++ "Choices' field"

def msgNotSlice (f : Field) : String :=
  "vee: field '" ++ f.name ++ "' must be a slice type, got " ++ goKindStr f.val

def msgNotIntChosen (f : Field) : String :=
  "vee: field '" ++ f.name ++ "' must be int or []int, got " ++ goTypeStr f.val

def msgEmptyChoices (f : Field) : String :=
  "vee: field '" ++ f.name ++ "' cannot be empty"

def msgIndexRange (name : String) (i : Int) (n : Nat) : String :=
  "vee: field '" ++ name ++ "' index " ++ formatInt i ++ " out of range for " ++
    formatNat n ++ " choices"

/-- First out-of-range index of a multi-select chosen slice. -/
def firstBadIndex (xs : List Int) (n : Nat) : Option Int :=
  xs.find? fun i => i < 0 || (n : Int) ≤ i

/-- The `Chosen` field type check: a single int or a slice of ints. -/
def chosenShape (sf : Field) : Except String (Bool × GoVal) :=
  match sf.val with
  | .intSlice xs => .ok (true, .intSlice xs)
  | .base (.vint n) => .ok (false, .base (.vint n))
  | _ => .error (msgNotIntChosen sf)

/-- The first out-of-range chosen index against `n` choices, if any. -/
def badIndex (cv : GoVal) (n : Nat) : Option Int :=
  match cv with
  | .intSlice xs => firstBadIndex xs n
  | .base (.vint i) => if i < 0 || (n : Int) ≤ i then some i else none
  | _ => none

/-- The per-base-name body of the validation loop. -/
def checkPair (cf sf : Field) : Except String CCPair :=
  match choiceStrings cf.val with
  | none => .error (msgNotSlice cf)
  | some cs =>
    match chosenShape sf with
    | .error e => .error e
    | .ok (isMulti, cv) =>
      if cs.length = 0 then .error (msgEmptyChoices cf)
      else
        match badIndex cv cs.length with
        | some i => .error (msgIndexRange sf.name i cs.length)
        | none => .ok ⟨cf.name, sf.name, cs, cv, isMulti⟩

/-- The loop over all `Choices` fields. -/
def buildPairs (sf : List (String × Field)) :
    List (String × Field) → Except String (List (String × CCPair))
  | [] => .ok []
  | (b, cf) :: rest =>
    match lookupBase sf b with
    | none => .error (msgNeedsChosen cf b)
    | some g =>
      match checkPair cf g with
      | .error e => .error e
      | .ok p =>
        match buildPairs sf rest with
        | .error e => .error e
        | .ok ps => .ok ((b, p) :: ps)

/-- The orphan-`Chosen` loop. -/
def orphanChosen (cf : List (String × Field)) : List (String × Field) → Option String
  | [] => none
  | (b, g) :: rest =>
    if (lookupBase cf b).isSome then orphanChosen cf rest else some (msgNeedsChoices g b)

/-- render.go `validateChoicesChosen`, shared by `Render` and `Bind`. It
never consults field tags: classification is by declared name only. -/
def validateChoicesChosen (rec : List Field) : Except String (List (String × CCPair)) :=
  match buildPairs (collectChosen rec) (collectChoices rec) with
  | .error e => .error e
  | .ok ps =>
    match orphanChosen (collectChoices rec) (collectChosen rec) with
    | some e => .error e
    | none => .ok ps

def lookupCC : List (String × CCPair) → String → Option CCPair
  | [], _ => none
  | (b, p) :: rest, key => if b = key then some p else lookupCC rest key

/-! ## Renderer (render.go) -/

/-- render.go `fieldNameToLabel`: a space before each uppercase rune after
the first. -/
def labelTail : List Char → List Char
  | [] => []
  | c :: rest => (if c.isUpper then [' ', c] else [c]) ++ labelTail rest

def fieldNameToLabel (s : String) : String :=
  match s.data with
  | [] => ""
  | c :: rest => String.mk (c :: labelTail rest)

/-- render.go `generateLabel`: the `label` attribute override, else the
declared-name-derived text. -/
def generateLabel (cfg : FieldConfig) (fieldName : String) : String :=
  match getAttr cfg.Attributes "label" with
  | some l => l
  | none => fieldNameToLabel fieldName

/-- render.go `renderLabel`. -/
def renderLabel (cfg : FieldConfig) (fieldName : String) : String :=
  if cfg.NoLabel then ""
  else
    let fieldID :=
      match getAttr cfg.Attributes "id" with
      | some customID => customID
      | none => cfg.Name
    "<label for=\"" ++ escapeHTML fieldID ++ "\">" ++
      escapeHTML (generateLabel cfg fieldName) ++ "</label>\n"

/-- An escaped `key="value"` attribute, or nothing, from the config. -/
def attrStr (cfg : FieldConfig) (key : String) : String :=
  match getAttr cfg.Attributes key with
  | some v => " " ++ key ++ "=\"" ++ escapeHTML v ++ "\""
  | none => ""

/-- A bare boolean attribute token, or nothing. -/
def flagStr (cfg : FieldConfig) (key : String) : String :=
  if (getAttr cfg.Attributes key).isSome then " " ++ key else ""

/-- The optional `class` attribute. -/
def classStr (css : String) : String :=
  if css ≠ "" then " class=\"" ++ escapeHTML css ++ "\"" else ""

/-- render.go `addUniversalAttributes`: id (custom or the field name),
placeholder, then required/readonly/disabled as bare tokens. -/
def universalAttrs (cfg : FieldConfig) : String :=
  (match getAttr cfg.Attributes "id" with
   | some id => " id=\"" ++ escapeHTML id ++ "\""
   | none => " id=\"" ++ escapeHTML cfg.Name ++ "\"") ++
  attrStr cfg "placeholder" ++ flagStr cfg "required" ++ flagStr cfg "readonly" ++
    flagStr cfg "disabled"

/-- The effective CSS class of a field: the `css` tag, else the
document-wide default. -/
def cssClassOf (f : Field) (opts : RenderOption) : String :=
  if f.cssTag ≠ "" then f.cssTag else opts.DefaultInputCSS

/-- Pointer unwrapping for the render loop: whether the field is a pointer,
whether that pointer is nil, and the value rendered (the pointee, or the
kind's zero value for a nil pointer). -/
def unwrapVal : GoVal → Bool × Bool × Value
  | .base v => (false, false, v)
  | .ptr k none => (true, true, k.zero)
  | .ptr _ (some v) => (true, false, v)
  | .strSlice _ => (false, false, .vstr "")
  | .intSlice _ => (false, false, .vint 0)

/-- The `time.Time` branch of the render loop. -/
def renderTimeField (cfg : FieldConfig) (css fieldName : String)
    (isPtr isNil : Bool) (t : GoTime) : String :=
  let inputType := timeInputType cfg
  renderLabel cfg fieldName ++
    "<input type=\"" ++ inputType ++ "\"" ++ " name=\"" ++ cfg.Name ++ "\"" ++
    (if (¬isPtr ∨ ¬isNil) ∧ t ≠ zeroTime then
      " value=\"" ++ escapeHTML (formatTimeInput inputType t) ++ "\""
    else "") ++
    attrStr cfg "min" ++ attrStr cfg "max" ++ classStr css ++ universalAttrs cfg ++ ">\n"

/-- The `time.Duration` branch of the render loop. -/
def renderDurField (cfg : FieldConfig) (css fieldName : String)
    (isPtr isNil : Bool) (d : Int) : String :=
  renderLabel cfg fieldName ++
    "<input type=\"number\"" ++ " name=\"" ++ cfg.Name ++ "\"" ++
    (if (¬isPtr ∨ ¬isNil) ∧ d ≠ 0 then
      " value=\"" ++ formatDurVal d (durUnits cfg) ++ "\""
    else "") ++
    attrStr cfg "min" ++ attrStr cfg "max" ++ attrStr cfg "step" ++ classStr css ++
      universalAttrs cfg ++ ">\n"

/-- The string input type: only email/password/tel/url override `text`. -/
def strInputType (cfg : FieldConfig) : String :=
  match getAttr cfg.Attributes "type" with
  | some "email" => "email"
  | some "password" => "password"
  | some "tel" => "tel"
  | some "url" => "url"
  | _ => "text"

/-- The string branch of the render loop. -/
def renderStrField (cfg : FieldConfig) (css fieldName : String) (s : String) : String :=
  renderLabel cfg fieldName ++
    "<input type=\"" ++ strInputType cfg ++ "\"" ++ " name=\"" ++ cfg.Name ++ "\"" ++
    " value=\"" ++ escapeHTML s ++ "\"" ++ classStr css ++ universalAttrs cfg ++ ">\n"

/-- The int/int64 branch of the render loop. -/
def renderIntField (cfg : FieldConfig) (css fieldName : String) (n : Int) : String :=
  renderLabel cfg fieldName ++
    "<input type=\"number\"" ++ " name=\"" ++ cfg.Name ++ "\"" ++
    " value=\"" ++ formatInt n ++ "\"" ++
    attrStr cfg "min" ++ attrStr cfg "max" ++ attrStr cfg "step" ++ classStr css ++
      universalAttrs cfg ++ ">\n"

/-- The float64 branch of the render loop (`step` defaults to `any`). -/
def renderFloatField (cfg : FieldConfig) (css fieldName : String) (q : Rat) : String :=
  renderLabel cfg fieldName ++
    "<input type=\"number\"" ++ " name=\"" ++ cfg.Name ++ "\"" ++
    " value=\"" ++ formatFloatG q ++ "\"" ++
    attrStr cfg "min" ++ attrStr cfg "max" ++
    (if (getAttr cfg.Attributes "step").isSome then attrStr cfg "step" else " step=\"any\"") ++
    classStr css ++ universalAttrs cfg ++ ">\n"

/-- The bool branch of the render loop: a checkbox with constant
`value="true"` and a `checked` token iff the value is true. -/
def renderBoolField (cfg : FieldConfig) (css fieldName : String) (b : Bool) : String :=
  renderLabel cfg fieldName ++
    "<input type=\"checkbox\"" ++ " name=\"" ++ cfg.Name ++ "\"" ++ " value=\"true\"" ++
    (if b then " checked" else "") ++ classStr css ++ universalAttrs cfg ++ ">\n"

/-- render.go `renderHiddenField`'s value attribute for each supported base
value (zero temporal values are suppressed here too). -/
def hiddenValueAttr (v : Value) : String :=
  match v with
  | .vtime t => if t = zeroTime then "" else " value=\"" ++ escapeHTML (formatTimeISO t) ++ "\""
  | .vdur d => if d = 0 then "" else " value=\"" ++ formatInt d ++ "\""
  | .vstr s => " value=\"" ++ escapeHTML s ++ "\""
  | .vint n => " value=\"" ++ formatInt n ++ "\""
  | .vfloat q => " value=\"" ++ formatFloatG q ++ "\""
  | .vbool b => if b then " value=\"true\"" else " value=\"false\""

/-- render.go `renderHiddenField`. Pointer and slice fields reach the
"unsupported type" error in Go; the hidden pre-pass rejects them before
this point. -/
def renderHiddenField (f : Field) (cfg : FieldConfig) (css : String) : Except String String :=
  match f.val with
  | .base v =>
    .ok ("<input type=\"hidden\"" ++ " name=\"" ++ cfg.Name ++ "\"" ++ hiddenValueAttr v ++
      classStr css ++ universalAttrs cfg ++ ">\n")
  | gv =>
    .error ("vee: unsupported type for hidden field '" ++ f.name ++ "': " ++ goKindStr gv)

/-- The universal attributes as emitted inside radio/checkbox group items
(id is set explicitly there, so only placeholder and the three flags). -/
def itemExtraAttrs (cfg : FieldConfig) : String :=
  attrStr cfg "placeholder" ++ flagStr cfg "required" ++ flagStr cfg "readonly" ++
    flagStr cfg "disabled"

/-- render.go `renderSelectField`. -/
def renderSelectField (pair : CCPair) (cfg : FieldConfig) (css : String)
    (selected : List Int) : String :=
  renderLabel cfg pair.chosenName ++
    "<select" ++ " name=\"" ++ cfg.Name ++ "\"" ++ (if pair.isMulti then " multiple" else "") ++
    classStr css ++ universalAttrs cfg ++ ">\n" ++
    String.join (pair.choices.enum.map fun p =>
      "<option value=\"" ++ formatNat p.1 ++ "\"" ++
        (if selected.contains (p.1 : Int) then " selected" else "") ++ ">" ++
        escapeHTML p.2 ++ "</option>\n") ++
    "</select>\n"

/-- render.go `renderRadioField`. -/
def renderRadioField (pair : CCPair) (cfg : FieldConfig) (css : String)
    (selected : Int) : String :=
  (if ¬cfg.NoLabel then
    "<fieldset><legend>" ++ escapeHTML (generateLabel cfg pair.chosenName) ++ "</legend>\n"
  else "") ++
  String.join (pair.choices.enum.map fun p =>
    let radioID := cfg.Name ++ "_" ++ formatNat p.1
    "<input type=\"radio\"" ++ " name=\"" ++ cfg.Name ++ "\"" ++
      " value=\"" ++ formatNat p.1 ++ "\"" ++
      (if (p.1 : Int) = selected then " checked" else "") ++ classStr css ++
      " id=\"" ++ radioID ++ "\"" ++ itemExtraAttrs cfg ++
      "><label for=\"" ++ radioID ++ "\">" ++ escapeHTML p.2 ++ "</label>\n") ++
  (if ¬cfg.NoLabel then "</fieldset>\n" else "")

/-- render.go `renderCheckboxField`. -/
def renderCheckboxGroupField (pair : CCPair) (cfg : FieldConfig) (css : String)
    (selected : List Int) : String :=
  (if ¬cfg.NoLabel then
    "<fieldset><legend>" ++ escapeHTML (generateLabel cfg pair.chosenName) ++ "</legend>\n"
  else "") ++
  String.join (pair.choices.enum.map fun p =>
    let checkboxID := cfg.Name ++ "_" ++ formatNat p.1
    "<input type=\"checkbox\"" ++ " name=\"" ++ cfg.Name ++ "\"" ++
      " value=\"" ++ formatNat p.1 ++ "\"" ++
      (if selected.contains (p.1 : Int) then " checked" else "") ++ classStr css ++
      " id=\"" ++ checkboxID ++ "\"" ++ itemExtraAttrs cfg ++
      "><label for=\"" ++ checkboxID ++ "\">" ++ escapeHTML p.2 ++ "</label>\n") ++
  (if ¬cfg.NoLabel then "</fieldset>\n" else "")

/-- The selected indices of a validated pair. -/
def selectedIndices (pair : CCPair) : List Int :=
  match pair.chosenVal with
  | .intSlice xs => xs
  | .base (.vint n) => [n]
  | _ => []

/-- render.go `renderMultiValueField`: `select` by default, `radio`
(single-select only) or `checkbox` on request. -/
def renderMultiValueField (pair : CCPair) (cfg : FieldConfig) (css : String) :
    Except String String :=
  let inputType :=
    match getAttr cfg.Attributes "type" with
    | some "select" => "select"
    | some "radio" => "radio"
    | some "checkbox" => "checkbox"
    | _ => "select"
  let selected := selectedIndices pair
  if inputType = "select" then .ok (renderSelectField pair cfg css selected)
  else if inputType = "radio" then
    if pair.isMulti then
      .error ("vee: radio buttons cannot be used with multi-select field '" ++
        pair.chosenName ++ "'")
    else .ok (renderRadioField pair cfg css (selected.headD 0))
  else .ok (renderCheckboxGroupField pair cfg css selected)

/-- The hidden-compatibility check of one field (render.go's first pass):
pointer type, then multi-value suffix, then slice type. -/
def hiddenFieldError (f : Field) : Option String :=
  let cfg := parseVeeTag f.tag f.name
  if cfg.Skip then none
  else if cfg.Hidden then
    match f.val with
    | .ptr _ _ => some ("vee: hidden attribute not supported for pointer type '" ++ f.name ++ "'")
    | _ =>
      if strEndsWith f.name "Choices" ∨ strEndsWith f.name "Chosen" then
        some ("vee: hidden attribute not supported for multi-value field '" ++ f.name ++ "'")
      else
        match f.val with
        | .strSlice _ =>
          some ("vee: hidden attribute not supported for slice/array type '" ++ f.name ++ "'")
        | .intSlice _ =>
          some ("vee: hidden attribute not supported for slice/array type '" ++ f.name ++ "'")
        | _ => none
  else none

/-- render.go's hidden pre-pass: the first offending field's error. -/
def hiddenPrePass (rec : List Field) : Option String := rec.findSome? hiddenFieldError

/-- One field of the main render loop (after the pre-pass and validation).
A `Chosen` field without a pair falls through to normal rendering exactly
as in Go (unreachable after validation). -/
def renderField (pairs : List (String × CCPair)) (opts : RenderOption) (f : Field) :
    Except String String :=
  let cfg := parseVeeTag f.tag f.name
  if cfg.Skip then .ok ""
  else
    let css := cssClassOf f opts
    let normalPath : Except String String :=
      if cfg.Hidden then renderHiddenField f cfg css
      else
        let (isPtr, isNil, v) := unwrapVal f.val
        match f.val, v with
        | .strSlice _, _ => .ok ""
        | .intSlice _, _ => .ok ""
        | _, .vtime t => .ok (renderTimeField cfg css f.name isPtr isNil t)
        | _, .vdur d => .ok (renderDurField cfg css f.name isPtr isNil d)
        | _, .vstr s => .ok (renderStrField cfg css f.name s)
        | _, .vint n => .ok (renderIntField cfg css f.name n)
        | _, .vfloat q => .ok (renderFloatField cfg css f.name q)
        | _, .vbool b => .ok (renderBoolField cfg css f.name b)
    match classifyName f.name with
    | .choices _ => .ok ""
    | .chosen b =>
      match lookupCC pairs b with
      | some pair => renderMultiValueField pair cfg css
      | none => normalPath
    | .normal => normalPath

def renderFields (pairs : List (String × CCPair)) (opts : RenderOption) :
    List Field → Except String String
  | [] => .ok ""
  | f :: rest =>
    match renderField pairs opts f with
    | .error e => .error e
    | .ok s =>
      match renderFields pairs opts rest with
      | .error e => .error e
      | .ok t => .ok (s ++ t)

/-- render.go's form opening tag: optional id and class, then method
(default POST) and action unless the action is the `script` marker. The
method is emitted without escaping, the action with. -/
def formHeader (opts : RenderOption) : String :=
  "<form" ++
    (if opts.FormID ≠ "" then " id=\"" ++ escapeHTML opts.FormID ++ "\"" else "") ++
    (if opts.FormCSS ≠ "" then " class=\"" ++ escapeHTML opts.FormCSS ++ "\"" else "") ++
    (if opts.FormAction ≠ "script" then
      " method=\"" ++ (if opts.FormMethod = "" then "POST" else opts.FormMethod) ++ "\"" ++
        (if opts.FormAction ≠ "" then
          " action=\"" ++ escapeHTML opts.FormAction ++ "\""
        else "")
    else "") ++ ">\n"

/-- render.go `Render` for a (pointer to) struct value with consolidated
options: hidden pre-pass, Choices/Chosen validation, then the field loop
inside the form wrapper. An error yields no markup. -/
def Render (rec : List Field) (opts : RenderOption) : Except String String :=
  match hiddenPrePass rec with
  | some e => .error e
  | none =>
    match validateChoicesChosen rec with
    | .error e => .error e
    | .ok pairs =>
      match renderFields pairs opts rec with
      | .error e => .error e
      | .ok body => .ok (formHeader opts ++ body ++ "</form>\n")

/-! ## Binder (bind.go) -/

/-- Wrap a parsed scalar back into the field's shape (`fieldVal.Set` with a
fresh pointee for pointer fields). -/
def setScalar (old : GoVal) (v : Value) : GoVal :=
  match old with
  | .ptr k _ => .ptr k (some v)
  | _ => .base v

/-- bind.go `bindMultiValueField`: absent or empty form data leaves the
field unchanged; otherwise every supplied string must parse as an in-range
index before anything is written. -/
def parseIndices (name : String) (n : Nat) : List String → Except String (List Int)
  | [] => .ok []
  | v :: rest =>
    match parseGoInt v with
    | none => .error ("vee: invalid index '" ++ v ++ "' for multi-select field '" ++ name ++ "'")
    | some i =>
      if i < 0 || (n : Int) ≤ i then
        .error ("vee: index " ++ formatInt i ++ " out of range for " ++ formatNat n ++
          " choices in field '" ++ name ++ "'")
      else
        match parseIndices name n rest with
        | .error e => .error e
        | .ok is => .ok (i :: is)

def bindMultiValueField (m : List (String × List String)) (pair : CCPair)
    (cfg : FieldConfig) (f : Field) : Except String Field :=
  match lookupForm m cfg.Name with
  | none => .ok f
  | some [] => .ok f
  | some (v0 :: vs) =>
    if pair.isMulti then
      match parseIndices cfg.Name pair.choices.length (v0 :: vs) with
      | .error e => .error e
      | .ok is => .ok { f with val := .intSlice is }
    else
      match parseGoInt v0 with
      | none =>
        .error ("vee: invalid index '" ++ v0 ++ "' for single-select field '" ++ cfg.Name ++ "'")
      | some i =>
        if i < 0 || (pair.choices.length : Int) ≤ i then
          .error ("vee: index " ++ formatInt i ++ " out of range for " ++
            formatNat pair.choices.length ++ " choices in field '" ++ cfg.Name ++ "'")
        else .ok { f with val := .base (.vint i) }

/-- The non-multi-value part of bind.go's field loop: the `time.Time` and
`time.Duration` branches, then the kind switch (bool by presence, the rest
parse the first value when the key is present). The wrapped Go parse error
(`%w`) is not part of the modelled message text. -/
def bindNormalField (m : List (String × List String)) (cfg : FieldConfig) (f : Field) :
    Except String Field :=
  match f.val.kind? with
  | some .ktime =>
    match lookupForm m cfg.Name with
    | none => .ok f
    | some [] => .ok f
    | some (v :: _) =>
      match parseGoTime (timeInputType cfg) v with
      | none => .error ("vee: cannot parse '" ++ v ++ "' as time for field '" ++ cfg.Name ++ "'")
      | some t => .ok { f with val := setScalar f.val (.vtime t) }
  | some .kdur =>
    match lookupForm m cfg.Name with
    | none => .ok f
    | some [] => .ok f
    | some (v :: _) =>
      match parseGoDuration cfg v with
      | none =>
        .error ("vee: cannot parse '" ++ v ++ "' as duration for field '" ++ cfg.Name ++ "'")
      | some d => .ok { f with val := setScalar f.val (.vdur d) }
  | some .kbool =>
    let present :=
      match lookupForm m cfg.Name with
      | some (_ :: _) => true
      | _ => false
    .ok { f with val := setScalar f.val (.vbool present) }
  | some .kstr =>
    match lookupForm m cfg.Name with
    | none => .ok f
    | some [] => .ok f
    | some (v :: _) => .ok { f with val := setScalar f.val (.vstr v) }
  | some .kint =>
    match lookupForm m cfg.Name with
    | none => .ok f
    | some [] => .ok f
    | some (v :: _) =>
      match parseGoInt v with
      | none =>
        .error ("vee: cannot parse '" ++ v ++ "' as integer for field '" ++ cfg.Name ++ "'")
      | some n => .ok { f with val := setScalar f.val (.vint n) }
  | some .kfloat =>
    match lookupForm m cfg.Name with
    | none => .ok f
    | some [] => .ok f
    | some (v :: _) =>
      match parseFloatRat v with
      | none => .error ("vee: cannot parse '" ++ v ++ "' as float for field '" ++ cfg.Name ++ "'")
      | some q => .ok { f with val := setScalar f.val (.vfloat q) }
  | none => .ok f

/-- One field of bind.go's loop: skip, `Choices` fields never written,
`Chosen` fields with a pair go to the multi-value binder (without a pair
they fall through, unreachable after validation), the rest to the normal
binder. -/
def bindField (m : List (String × List String)) (pairs : List (String × CCPair))
    (f : Field) : Except String Field :=
  let cfg := parseVeeTag f.tag f.name
  if cfg.Skip then .ok f
  else
    match classifyName f.name with
    | .choices _ => .ok f
    | .chosen b =>
      match lookupCC pairs b with
      | some pair => bindMultiValueField m pair cfg f
      | none => bindNormalField m cfg f
    | .normal => bindNormalField m cfg f

/-- The field loop: an error aborts immediately, leaving already-processed
fields mutated and the rest untouched (bind.go's documented
partial-mutation-on-error behavior). -/
def bindFields (m : List (String × List String)) (pairs : List (String × CCPair)) :
    List Field → Option String × List Field
  | [] => (none, [])
  | f :: rest =>
    match bindField m pairs f with
    | .error e => (some e, f :: rest)
    | .ok f' =>
      let (r, rest') := bindFields m pairs rest
      match r with
      | some e => (some e, f' :: rest')
      | none => (none, f' :: rest')

/-- bind.go `Bind` for a pointer-to-struct target (the non-pointer and
non-struct usage errors precede this model's domain): Choices/Chosen
validation, then the field loop. The returned record is the target's final
state (unchanged when validation fails). -/
def Bind (m : List (String × List String)) (rec : List Field) :
    Option String × List Field :=
  match validateChoicesChosen rec with
  | .error e => (some e, rec)
  | .ok pairs => bindFields m pairs rec

/-! ## Form submission of a rendered control (for the round-trip claim) -/

/-- The external data an idealized form submission produces for one
rendered scalar control (this is also exactly the spec's
`parseFormFromMarkup` test helper semantics): the control's `value` string
(unescaped by the submitting browser) under the control's name; a checkbox
contributes its key only when rendered `checked`; a control whose `value`
attribute was suppressed or empty contributes nothing. -/
def controlSubmission (f : Field) : List (String × List String) :=
  let cfg := parseVeeTag f.tag f.name
  match f.val with
  | .base (.vbool b) => if b then [(cfg.Name, ["true"])] else []
  | .base (.vstr s) => if s = "" then [] else [(cfg.Name, [s])]
  | .base (.vint n) => [(cfg.Name, [formatInt n])]
  | .base (.vfloat q) => [(cfg.Name, [formatFloatG q])]
  | .base (.vtime t) =>
    if t = zeroTime then [] else [(cfg.Name, [formatTimeInput (timeInputType cfg) t])]
  | .base (.vdur d) => if d = 0 then [] else [(cfg.Name, [formatDurVal d (durUnits cfg)])]
  | _ => []

/-- A fresh (zero-valued) copy of a field, the bind target of the
round-trip property. -/
def freshField (f : Field) : Field :=
  { f with val :=
      match f.val with
      | .base v => .base v.kind.zero
      | .ptr k _ => .ptr k none
      | .strSlice _ => .strSlice []
      | .intSlice _ => .intSlice [] }

/-! ## Definitions used by the claim statements -/

instance {α β : Type} [DecidableEq α] [DecidableEq β] : DecidableEq (Except α β)
  | .error a, .error b =>
    if h : a = b then .isTrue (by rw [h]) else .isFalse (by simp [h])
  | .error _, .ok _ => .isFalse (by simp)
  | .ok _, .error _ => .isFalse (by simp)
  | .ok a, .ok b =>
    if h : a = b then .isTrue (by rw [h]) else .isFalse (by simp [h])

/-- A single plain scalar field named `X` with no tags, the generic record
of the round-trip property. -/
def rtField (v : Value) : Field := ⟨"X", "", "", .base v⟩

/-- The round-trip property of the spec for one scalar value: render it,
submit the rendered control's data, bind into a fresh record, and recover
the record holding the value. -/
def RoundTrips (v : Value) : Prop :=
  Bind (controlSubmission (rtField v)) [freshField (rtField v)] = (none, [rtField v])

/-- Every index of a validated pair is in range of its choice list. -/
def pairInRange (p : CCPair) : Bool :=
  match p.chosenVal with
  | .intSlice xs => xs.all fun i => 0 ≤ i && i < (p.choices.length : Int)
  | .base (.vint n) => 0 ≤ n && n < (p.choices.length : Int)
  | _ => true

/-- The two-field record of the index-bounds scenario: a choice list and a
single-select chosen index. -/
def recPair (cs : List String) (v : Int) : List Field :=
  [⟨"FooChoices", "", "", .strSlice cs⟩, ⟨"FooChosen", "", "", .base (.vint v)⟩]

/-- Replace a field's tags, keeping its name and value. -/
def retagField (g h : Field → String) (f : Field) : Field :=
  { f with tag := g f, cssTag := h f }

/-- The spec-side reading of one tag segment as an attribute entry: a
`key:value` segment yields the trimmed key and the quote-stripped trimmed
value, a bare segment other than the two schema flags yields a zero-value
entry, and empty segments and the `nolabel`/`hidden` flags yield none. -/
def specSegmentAttr (rawPart : String) : Option (String × String) :=
  let part := strTrim rawPart
  if part = "" then none
  else if strContains part ':' then
    let (k, v) := splitColon part.data
    some (strTrim (String.mk k), stripQuotes (strTrim (String.mk v)))
  else if part = "nolabel" then none
  else if part = "hidden" then none
  else some (part, "")

/-- The tag segments that `parseVeeTag` processes as flags/attributes: all
comma-separated segments, minus a leading `$name` override segment. -/
def tagRest (tag : String) : List String :=
  let parts := strSplitComma tag
  match parts with
  | [] => parts
  | p :: ps => if strStartsWith p "$" then ps else parts

/-! ## Supporting lemmas: substrings -/

theorem listHasSub_iff (n h : List Char) : listHasSub n h = true ↔ n <:+: h := by
  induction h with
  | nil =>
    simp only [listHasSub, List.isEmpty_iff]
    constructor
    · intro hn; simp [hn]
    · intro hn; exact List.eq_nil_of_infix_nil hn
  | cons c rest ih =>
    simp only [listHasSub, Bool.or_eq_true, List.isPrefixOf_iff_prefix, ih,
      List.infix_cons_iff]

theorem hasSub_of_eq_append (hay a needle b : String)
    (h : hay = a ++ needle ++ b) : hasSub hay needle = true := by
  subst h
  rw [hasSub, listHasSub_iff]
  simp only [String.data_append]
  exact List.infix_append _ _ _

/-! ## Supporting lemmas: decimal digits -/

theorem charDigit_digitChar (d : Nat) (h : d < 10) : charDigit (Nat.digitChar d) = d := by
  interval_cases d <;> rfl

theorem isDigit_digitChar (d : Nat) (h : d < 10) : (Nat.digitChar d).isDigit = true := by
  interval_cases d <;> rfl

theorem natDecimalAux_eq (fuel n : Nat) (h : n ≤ fuel) :
    natDecimalAux fuel n =
      if n = 0 then [] else ((Nat.digits 10 n).map Nat.digitChar).reverse := by
  induction fuel generalizing n with
  | zero =>
    have h0 : n = 0 := by omega
    subst h0
    rfl
  | succ fuel ih =>
    rw [natDecimalAux]
    by_cases h0 : n = 0
    · rw [if_pos h0, if_pos h0]
    · rw [if_neg h0, if_neg h0, ih (n / 10) (by omega),
        Nat.digits_def' (by norm_num : 1 < 10) (Nat.pos_of_ne_zero h0)]
      by_cases h1 : n / 10 = 0
      · rw [if_pos h1, h1]
        simp
      · rw [if_neg h1]
        simp

theorem natDecimal_eq_digits (n : Nat) :
    natDecimal n = if n = 0 then ['0'] else ((Nat.digits 10 n).map Nat.digitChar).reverse := by
  rw [natDecimal]
  by_cases h0 : n = 0
  · rw [if_pos h0, if_pos h0]
  · rw [if_neg h0, if_neg h0, natDecimalAux_eq n n le_rfl, if_neg h0]

theorem allDigits_natDecimal (n : Nat) : allDigits (natDecimal n) = true := by
  rw [natDecimal_eq_digits]
  split
  · rfl
  · rw [allDigits, List.all_eq_true]
    intro c hc
    rw [List.mem_reverse, List.mem_map] at hc
    obtain ⟨d, hd, rfl⟩ := hc
    exact isDigit_digitChar d (Nat.digits_lt_base (by norm_num) hd)

theorem foldl_digitChars (ds : List Nat) (hds : ∀ d ∈ ds, d < 10) (acc : Nat) :
    ((ds.map Nat.digitChar).reverse.foldl (fun a c => a * 10 + charDigit c) acc) =
      acc * 10 ^ ds.length + Nat.ofDigits 10 ds := by
  induction ds generalizing acc with
  | nil => simp [Nat.ofDigits]
  | cons d rest ih =>
    have hd : d < 10 := hds d (List.mem_cons_self d rest)
    have hrest : ∀ x ∈ rest, x < 10 := fun x hx => hds x (List.mem_cons_of_mem d hx)
    simp only [List.map_cons, List.reverse_cons, List.foldl_append, List.foldl_cons,
      List.foldl_nil, ih hrest, Nat.ofDigits_cons, List.length_cons,
      charDigit_digitChar d hd]
    ring

theorem digitsVal_natDecimal (n : Nat) : digitsVal (natDecimal n) = n := by
  rw [natDecimal_eq_digits, digitsVal]
  split
  · next h => subst h; decide
  · rw [foldl_digitChars _ (fun d hd => Nat.digits_lt_base (by norm_num) hd)]
    simp [Nat.ofDigits_digits]

theorem parseDigitsAcc_of_allDigits (l : List Char) (hl : allDigits l = true) (acc : Nat) :
    parseDigitsAcc acc l = some (l.foldl (fun a c => a * 10 + charDigit c) acc) := by
  induction l generalizing acc with
  | nil => rfl
  | cons c rest ih =>
    rw [allDigits, List.all_cons, Bool.and_eq_true] at hl
    rw [parseDigitsAcc, if_pos hl.1, List.foldl_cons, ih (by rw [allDigits]; exact hl.2)]

theorem natDecimal_ne_nil (n : Nat) : natDecimal n ≠ [] := by
  rw [natDecimal_eq_digits]
  split
  · simp
  · next h =>
    have : Nat.digits 10 n ≠ [] := Nat.digits_ne_nil_iff_ne_zero.2 h
    simpa using this

theorem parseNatDec_natDecimal (n : Nat) : parseNatDec (natDecimal n) = some n := by
  have hall := allDigits_natDecimal n
  have hval := digitsVal_natDecimal n
  have hne := natDecimal_ne_nil n
  rw [parseNatDec.eq_def]
  split
  · exact absurd (by assumption) hne
  · next c cs heq =>
    rw [← heq, parseDigitsAcc_of_allDigits _ hall]
    rw [digitsVal] at hval
    rw [hval]

theorem stripSign_digits (l : List Char) (h : allDigits l = true) : stripSign l = (false, l) := by
  cases l with
  | nil => rfl
  | cons c r =>
    rw [allDigits, List.all_cons, Bool.and_eq_true] at h
    have h1 : c ≠ '+' := by rintro rfl; exact absurd h.1 (by decide)
    have h2 : c ≠ '-' := by rintro rfl; exact absurd h.1 (by decide)
    simp [stripSign, h1, h2]

theorem data_formatNat (n : Nat) : (formatNat n).data = natDecimal n := rfl

theorem parseGoInt_formatInt (i : Int) (h1 : int64Min ≤ i) (h2 : i ≤ int64Max) :
    parseGoInt (formatInt i) = some i := by
  rw [int64Min] at h1
  rw [int64Max] at h2
  rw [parseGoInt, formatInt]
  by_cases hneg : i < 0
  · rw [if_pos hneg]
    have hdata : ("-" ++ formatNat i.natAbs).data = '-' :: natDecimal i.natAbs := by
      rw [String.data_append, data_formatNat]; rfl
    rw [hdata]
    have hstrip : stripSign ('-' :: natDecimal i.natAbs) = (true, natDecimal i.natAbs) := by
      simp [stripSign]
    rw [hstrip]
    simp only [parseNatDec_natDecimal, if_true]
    have hi : -(i.natAbs : Int) = i := by omega
    rw [hi, if_neg (by rw [int64Min, int64Max]; omega)]
  · rw [if_neg hneg]
    rw [data_formatNat, stripSign_digits _ (allDigits_natDecimal _)]
    simp only [parseNatDec_natDecimal, Bool.false_eq_true, if_false]
    have hi2 : (i.natAbs : Int) = i := by omega
    rw [hi2, if_neg (by rw [int64Min, int64Max]; omega)]

theorem breakAtExp_digits (l : List Char) (h : allDigits l = true) :
    breakAtExp l = (l, none) := by
  induction l with
  | nil => rfl
  | cons c r ih =>
    rw [allDigits, List.all_cons, Bool.and_eq_true] at h
    have h1 : ¬(c = 'e' ∨ c = 'E') := by
      rintro (rfl | rfl) <;> exact absurd h.1 (by decide)
    rw [breakAtExp, if_neg h1, ih (by rw [allDigits]; exact h.2)]

theorem breakAtPoint_digits (l : List Char) (h : allDigits l = true) :
    breakAtPoint l = (l, none) := by
  induction l with
  | nil => rfl
  | cons c r ih =>
    rw [allDigits, List.all_cons, Bool.and_eq_true] at h
    have h1 : ¬(c = '.') := by rintro rfl; exact absurd h.1 (by decide)
    rw [breakAtPoint, if_neg h1, ih (by rw [allDigits]; exact h.2)]

theorem digitsVal_nil_rat : (digitsVal ([] : List Char) : Rat) = 0 := by
  norm_num [digitsVal]

theorem parseFloatRat_formatInt (i : Int) : parseFloatRat (formatInt i) = some (i : Rat) := by
  rw [parseFloatRat, formatInt]
  by_cases hneg : i < 0
  · rw [if_pos hneg]
    have hdata : ("-" ++ formatNat i.natAbs).data = '-' :: natDecimal i.natAbs := by
      rw [String.data_append, data_formatNat]; rfl
    rw [hdata]
    have hstrip : stripSign ('-' :: natDecimal i.natAbs) = (true, natDecimal i.natAbs) := by
      simp [stripSign]
    rw [hstrip]
    simp only [breakAtExp_digits _ (allDigits_natDecimal _),
      breakAtPoint_digits _ (allDigits_natDecimal _), Option.getD_none,
      allDigits_natDecimal]
    have hcond : ¬(¬True ∨ ¬allDigits ([] : List Char) = true ∨
        ((natDecimal i.natAbs).isEmpty = true ∧ ([] : List Char).isEmpty = true)) := by
      simp [allDigits, List.isEmpty_iff, natDecimal_ne_nil]
    rw [if_neg hcond, if_pos trivial]
    simp only [digitsVal_natDecimal, digitsVal_nil_rat, List.length_nil, pow_zero,
      zero_div, add_zero, Option.some.injEq]
    have hcast : ((i.natAbs : Nat) : Rat) = -(i : Rat) := by
      have h2 : (i.natAbs : Int) = -i := by omega
      calc ((i.natAbs : Nat) : Rat) = ((i.natAbs : Int) : Rat) := by rw [Int.cast_natCast]
        _ = ((-i : Int) : Rat) := by rw [h2]
        _ = -(i : Rat) := by push_cast; ring
    rw [hcast]; ring
  · rw [if_neg hneg]
    rw [data_formatNat, stripSign_digits _ (allDigits_natDecimal _)]
    simp only [breakAtExp_digits _ (allDigits_natDecimal _),
      breakAtPoint_digits _ (allDigits_natDecimal _), Option.getD_none,
      allDigits_natDecimal]
    have hcond : ¬(¬True ∨ ¬allDigits ([] : List Char) = true ∨
        ((natDecimal i.natAbs).isEmpty = true ∧ ([] : List Char).isEmpty = true)) := by
      simp [allDigits, List.isEmpty_iff, natDecimal_ne_nil]
    rw [if_neg hcond]
    simp only [Bool.false_eq_true, if_false, digitsVal_natDecimal, digitsVal_nil_rat,
      List.length_nil, pow_zero, zero_div, add_zero, Option.some.injEq]
    have h2 : (i.natAbs : Int) = i := by omega
    calc ((i.natAbs : Nat) : Rat) = ((i.natAbs : Int) : Rat) := by rw [Int.cast_natCast]
      _ = (i : Rat) := by rw [h2]

theorem truncRat_intCast (i : Int) : truncRat (i : Rat) = i := by
  rw [truncRat, Rat.num_intCast, Rat.den_intCast]
  exact_mod_cast Int.tdiv_one i

theorem parseDecTrunc_formatInt (i : Int) : parseDecTrunc (formatInt i) = some i := by
  rw [parseDecTrunc, formatInt]
  by_cases hneg : i < 0
  · rw [if_pos hneg]
    have hdata : ("-" ++ formatNat i.natAbs).data = '-' :: natDecimal i.natAbs := by
      rw [String.data_append, data_formatNat]; rfl
    rw [hdata]
    have hstrip : stripSign ('-' :: natDecimal i.natAbs) = (true, natDecimal i.natAbs) := by
      simp [stripSign]
    rw [hstrip]
    simp only [breakAtExp_digits _ (allDigits_natDecimal _),
      breakAtPoint_digits _ (allDigits_natDecimal _), Option.getD_none,
      allDigits_natDecimal]
    have hcond : ¬(¬True ∨ ¬allDigits ([] : List Char) = true ∨
        ((natDecimal i.natAbs).isEmpty = true ∧ ([] : List Char).isEmpty = true)) := by
      simp [allDigits, List.isEmpty_iff, natDecimal_ne_nil]
    rw [if_neg hcond]
    simp only [digitsVal_natDecimal, if_true, Option.some.injEq]
    omega
  · rw [if_neg hneg]
    rw [data_formatNat, stripSign_digits _ (allDigits_natDecimal _)]
    simp only [breakAtExp_digits _ (allDigits_natDecimal _),
      breakAtPoint_digits _ (allDigits_natDecimal _), Option.getD_none,
      allDigits_natDecimal]
    have hcond : ¬(¬True ∨ ¬allDigits ([] : List Char) = true ∨
        ((natDecimal i.natAbs).isEmpty = true ∧ ([] : List Char).isEmpty = true)) := by
      simp [allDigits, List.isEmpty_iff, natDecimal_ne_nil]
    rw [if_neg hcond]
    simp only [digitsVal_natDecimal, Bool.false_eq_true, if_false, Option.some.injEq]
    omega

/-! ## Supporting lemmas: fixed-width time components -/

theorem natDecimal_one (n : Nat) (h : n < 10) : natDecimal n = [Nat.digitChar n] := by
  by_cases h0 : n = 0
  · subst h0; rfl
  · rw [natDecimal_eq_digits, if_neg h0, Nat.digits_def' (by norm_num) (by omega),
      Nat.mod_eq_of_lt h, Nat.div_eq_of_lt h]
    simp

theorem natDecimal_two (n : Nat) (h1 : 10 ≤ n) (h2 : n ≤ 99) :
    natDecimal n = [Nat.digitChar (n / 10), Nat.digitChar (n % 10)] := by
  rw [natDecimal_eq_digits, if_neg (by omega), Nat.digits_def' (by norm_num) (by omega),
    Nat.digits_def' (by norm_num) (by omega : 0 < n / 10),
    Nat.mod_eq_of_lt (by omega : n / 10 < 10),
    Nat.div_eq_of_lt (by omega : n / 10 < 10)]
  simp

theorem natDecimal_three (n : Nat) (h1 : 100 ≤ n) (h2 : n ≤ 999) :
    natDecimal n =
      [Nat.digitChar (n / 100), Nat.digitChar (n / 10 % 10), Nat.digitChar (n % 10)] := by
  rw [natDecimal_eq_digits, if_neg (by omega), Nat.digits_def' (by norm_num) (by omega),
    Nat.digits_def' (by norm_num) (by omega : 0 < n / 10),
    Nat.digits_def' (by norm_num) (by omega : 0 < n / 10 / 10),
    Nat.mod_eq_of_lt (by omega : n / 10 / 10 < 10),
    Nat.div_eq_of_lt (by omega : n / 10 / 10 < 10)]
  simp only [Nat.div_div_eq_div_mul]
  norm_num

theorem natDecimal_four (n : Nat) (h1 : 1000 ≤ n) (h2 : n ≤ 9999) :
    natDecimal n =
      [Nat.digitChar (n / 1000), Nat.digitChar (n / 100 % 10), Nat.digitChar (n / 10 % 10),
        Nat.digitChar (n % 10)] := by
  rw [natDecimal_eq_digits, if_neg (by omega), Nat.digits_def' (by norm_num) (by omega),
    Nat.digits_def' (by norm_num) (by omega : 0 < n / 10),
    Nat.digits_def' (by norm_num) (by omega : 0 < n / 10 / 10),
    Nat.digits_def' (by norm_num) (by omega : 0 < n / 10 / 10 / 10),
    Nat.mod_eq_of_lt (by omega : n / 10 / 10 / 10 < 10),
    Nat.div_eq_of_lt (by omega : n / 10 / 10 / 10 < 10)]
  simp only [Nat.div_div_eq_div_mul]
  norm_num

theorem data_pad2 (n : Nat) (h : n ≤ 99) :
    (pad2 n).data = [Nat.digitChar (n / 10), Nat.digitChar (n % 10)] := by
  rw [pad2]
  by_cases h10 : n < 10
  · rw [if_pos h10]
    have : ("0" ++ formatNat n).data = '0' :: natDecimal n := by
      rw [String.data_append, data_formatNat]; rfl
    rw [this, natDecimal_one n h10, Nat.div_eq_of_lt h10, Nat.mod_eq_of_lt h10]
    rfl
  · rw [if_neg h10, data_formatNat, natDecimal_two n (by omega) h]

theorem data_pad4 (n : Nat) (h : n ≤ 9999) :
    (pad4 n).data = [Nat.digitChar (n / 1000), Nat.digitChar (n / 100 % 10),
      Nat.digitChar (n / 10 % 10), Nat.digitChar (n % 10)] := by
  rw [pad4]
  by_cases h10 : n < 10
  · rw [if_pos h10]
    have : ("000" ++ formatNat n).data = '0' :: '0' :: '0' :: natDecimal n := by
      rw [String.data_append, data_formatNat]; rfl
    rw [this, natDecimal_one n h10]
    have e1 : n / 1000 = 0 := by omega
    have e2 : n / 100 % 10 = 0 := by omega
    have e3 : n / 10 % 10 = 0 := by omega
    have e4 : n % 10 = n := by omega
    rw [e1, e2, e3, e4]
    rfl
  · by_cases h100 : n < 100
    · rw [if_neg h10, if_pos h100]
      have : ("00" ++ formatNat n).data = '0' :: '0' :: natDecimal n := by
        rw [String.data_append, data_formatNat]; rfl
      rw [this, natDecimal_two n (by omega) (by omega)]
      have e1 : n / 1000 = 0 := by omega
      have e2 : n / 100 % 10 = 0 := by omega
      have e3 : n / 10 % 10 = n / 10 := by omega
      rw [e1, e2, e3]
      norm_num [Nat.digitChar]
    · by_cases h1000 : n < 1000
      · rw [if_neg h10, if_neg h100, if_pos h1000]
        have : ("0" ++ formatNat n).data = '0' :: natDecimal n := by
          rw [String.data_append, data_formatNat]; rfl
        rw [this, natDecimal_three n (by omega) (by omega)]
        have e1 : n / 1000 = 0 := by omega
        have e2 : n / 100 % 10 = n / 100 := by omega
        rw [e1, e2]
        norm_num [Nat.digitChar]
      · rw [if_neg h10, if_neg h100, if_neg h1000, data_formatNat,
          natDecimal_four n (by omega) h]

theorem parse2_digits (a b : Nat) (ha : a < 10) (hb : b < 10) (rest : List Char) :
    parse2 (Nat.digitChar a :: Nat.digitChar b :: rest) = some (a * 10 + b, rest) := by
  rw [parse2]
  rw [if_pos (by rw [isDigit_digitChar a ha, isDigit_digitChar b hb]; rfl)]
  rw [charDigit_digitChar a ha, charDigit_digitChar b hb]

theorem parse2_pad2 (n : Nat) (h : n ≤ 99) (rest : List Char) :
    parse2 ((pad2 n).data ++ rest) = some (n, rest) := by
  rw [data_pad2 n h]
  simp only [List.cons_append, List.nil_append]
  rw [parse2_digits _ _ (by omega) (by omega)]
  congr 1
  congr 1
  omega

theorem parse4_digits (a b c d : Nat) (ha : a < 10) (hb : b < 10) (hc : c < 10)
    (hd : d < 10) (rest : List Char) :
    parse4 (Nat.digitChar a :: Nat.digitChar b :: Nat.digitChar c :: Nat.digitChar d :: rest) =
      some (a * 1000 + b * 100 + c * 10 + d, rest) := by
  rw [parse4]
  rw [if_pos (by
    rw [isDigit_digitChar a ha, isDigit_digitChar b hb, isDigit_digitChar c hc,
      isDigit_digitChar d hd]; rfl)]
  rw [charDigit_digitChar a ha, charDigit_digitChar b hb, charDigit_digitChar c hc,
    charDigit_digitChar d hd]

theorem parse4_pad4 (n : Nat) (h : n ≤ 9999) (rest : List Char) :
    parse4 ((pad4 n).data ++ rest) = some (n, rest) := by
  rw [data_pad4 n h]
  simp only [List.cons_append, List.nil_append]
  rw [parse4_digits _ _ _ _ (by omega) (by omega) (by omega) (by omega)]
  congr 1
  congr 1
  omega

theorem expectCh_cons (c : Char) (rest : List Char) : expectCh c (c :: rest) = some rest := by
  rw [expectCh, if_pos rfl]

theorem daysInMonth_le (y m : Nat) : daysInMonth y m ≤ 31 := by
  rw [daysInMonth]
  split
  · split <;> omega
  · split <;> omega

theorem parseDatePart_format (t : GoTime) (h : validTime t) (hy : t.year ≤ 9999)
    (rest : List Char) :
    parseDatePart ((formatDateVal t).data ++ rest) = some (t.year, t.month, t.day, rest) := by
  obtain ⟨h1, h2, h3, h4, _, _, _, _⟩ := h
  have hdata : (formatDateVal t).data =
      (pad4 t.year).data ++ '-' :: ((pad2 t.month).data ++ '-' :: (pad2 t.day).data) := by
    rw [formatDateVal]
    simp only [String.data_append]
    simp
  rw [hdata]
  rw [parseDatePart]
  simp only [List.append_assoc, List.cons_append]
  rw [parse4_pad4 t.year hy]
  simp only [Option.bind_eq_bind, Option.some_bind]
  rw [expectCh_cons]
  simp only [Option.some_bind]
  rw [parse2_pad2 t.month (by omega)]
  simp only [Option.some_bind]
  rw [expectCh_cons]
  simp only [Option.some_bind]
  rw [parse2_pad2 t.day (by
    have := daysInMonth_le t.year t.month
    omega)]
  simp only [Option.some_bind]
  rw [if_pos ⟨h1, h2, h3, h4⟩]

theorem parseClockPart_format (t : GoTime) (h : validTime t) (rest : List Char) :
    parseClockPart ((formatClockVal t).data ++ rest) = some (t.hour, t.minute, rest) := by
  obtain ⟨_, _, _, _, h5, h6, _, _⟩ := h
  have hdata : (formatClockVal t).data = (pad2 t.hour).data ++ ':' :: (pad2 t.minute).data := by
    rw [formatClockVal]
    simp only [String.data_append]
    simp
  rw [hdata]
  rw [parseClockPart]
  simp only [List.append_assoc, List.cons_append]
  rw [parse2_pad2 t.hour (by omega)]
  simp only [Option.bind_eq_bind, Option.some_bind]
  rw [expectCh_cons]
  simp only [Option.some_bind]
  rw [parse2_pad2 t.minute (by omega)]
  simp only [Option.some_bind]
  rw [if_pos ⟨h5, h6⟩]

theorem parseGoTime_format_dtl (t : GoTime) (h : validTime t) (hy : t.year ≤ 9999)
    (hsec : t.sec = 0) (hns : t.nsec = 0) :
    parseGoTime "datetime-local" (formatTimeInput "datetime-local" t) = some t := by
  rw [parseGoTime, if_neg (by decide), if_neg (by decide)]
  rw [formatTimeInput, if_neg (by decide), if_neg (by decide)]
  have hdata : (formatDateVal t ++ "T" ++ formatClockVal t).data =
      (formatDateVal t).data ++ 'T' :: ((formatClockVal t).data ++ []) := by
    simp only [String.data_append, List.append_nil]
    simp
  rw [hdata]
  simp only [parseDatePart_format t h hy, expectCh_cons, parseClockPart_format t h]
  cases t
  simp only at hsec hns
  subst hsec hns
  rfl


/-! ## Supporting lemmas: the binder's field loop -/

theorem lookupForm_self (k : String) (vs : List String)
    (rest : List (String × List String)) : lookupForm ((k, vs) :: rest) k = some vs := by
  rw [lookupForm, if_pos rfl]

theorem validate_single_normal (f : Field) (h : classifyName f.name = .normal) :
    validateChoicesChosen [f] = .ok [] := by
  rw [validateChoicesChosen, collectChoices, collectChosen]
  simp only [List.filterMap_cons, List.filterMap_nil, h]
  rfl

theorem Bind_single_ok (m : List (String × List String)) (f f' : Field)
    (h : classifyName f.name = .normal) (hb : bindField m [] f = .ok f') :
    Bind m [f] = (none, [f']) := by
  rw [Bind, validate_single_normal f h]
  show bindFields m [] [f] = (none, [f'])
  rw [bindFields, hb, bindFields]

theorem bindField_normal (m : List (String × List String)) (pairs : List (String × CCPair))
    (f : Field) (hskip : (parseVeeTag f.tag f.name).Skip = false)
    (h : classifyName f.name = .normal) :
    bindField m pairs f = bindNormalField m (parseVeeTag f.tag f.name) f := by
  rw [bindField]
  simp only [hskip, Bool.false_eq_true, if_false, h]

theorem bindNormalField_absent (m : List (String × List String)) (cfg : FieldConfig)
    (f : Field) (hl : lookupForm m cfg.Name = none) (hk : f.val.kind? ≠ some .kbool) :
    bindNormalField m cfg f = .ok f := by
  rw [bindNormalField]
  cases hkk : f.val.kind? with
  | none => rfl
  | some k =>
    cases k
    · simp only [hkk, hl]
    · simp only [hkk, hl]
    · simp only [hkk, hl]
    · exact absurd hkk hk
    · simp only [hkk, hl]
    · simp only [hkk, hl]

theorem bindNormalField_str (m : List (String × List String)) (cfg : FieldConfig)
    (f : Field) (v : String) (rest : List String) (hk : f.val.kind? = some .kstr)
    (hl : lookupForm m cfg.Name = some (v :: rest)) :
    bindNormalField m cfg f = .ok { f with val := setScalar f.val (.vstr v) } := by
  rw [bindNormalField]
  simp only [hk, hl]

theorem bindNormalField_int_ok (m : List (String × List String)) (cfg : FieldConfig)
    (f : Field) (v : String) (rest : List String) (n : Int) (hk : f.val.kind? = some .kint)
    (hl : lookupForm m cfg.Name = some (v :: rest)) (hp : parseGoInt v = some n) :
    bindNormalField m cfg f = .ok { f with val := setScalar f.val (.vint n) } := by
  rw [bindNormalField]
  simp only [hk, hl, hp]

theorem bindNormalField_int_err (m : List (String × List String)) (cfg : FieldConfig)
    (f : Field) (v : String) (rest : List String) (hk : f.val.kind? = some .kint)
    (hl : lookupForm m cfg.Name = some (v :: rest)) (hp : parseGoInt v = none) :
    bindNormalField m cfg f =
      .error ("vee: cannot parse '" ++ v ++ "' as integer for field '" ++ cfg.Name ++ "'") := by
  rw [bindNormalField]
  simp only [hk, hl, hp]

theorem bindNormalField_float_ok (m : List (String × List String)) (cfg : FieldConfig)
    (f : Field) (v : String) (rest : List String) (q : Rat) (hk : f.val.kind? = some .kfloat)
    (hl : lookupForm m cfg.Name = some (v :: rest)) (hp : parseFloatRat v = some q) :
    bindNormalField m cfg f = .ok { f with val := setScalar f.val (.vfloat q) } := by
  rw [bindNormalField]
  simp only [hk, hl, hp]

theorem bindNormalField_time_ok (m : List (String × List String)) (cfg : FieldConfig)
    (f : Field) (v : String) (rest : List String) (t : GoTime) (hk : f.val.kind? = some .ktime)
    (hl : lookupForm m cfg.Name = some (v :: rest))
    (hp : parseGoTime (timeInputType cfg) v = some t) :
    bindNormalField m cfg f = .ok { f with val := setScalar f.val (.vtime t) } := by
  rw [bindNormalField]
  simp only [hk, hl, hp]

theorem bindNormalField_dur_ok (m : List (String × List String)) (cfg : FieldConfig)
    (f : Field) (v : String) (rest : List String) (d : Int) (hk : f.val.kind? = some .kdur)
    (hl : lookupForm m cfg.Name = some (v :: rest)) (hp : parseGoDuration cfg v = some d) :
    bindNormalField m cfg f = .ok { f with val := setScalar f.val (.vdur d) } := by
  rw [bindNormalField]
  simp only [hk, hl, hp]

theorem bindNormalField_bool (m : List (String × List String)) (cfg : FieldConfig)
    (f : Field) (hk : f.val.kind? = some .kbool) :
    bindNormalField m cfg f =
      .ok { f with val := setScalar f.val (.vbool
        (match lookupForm m cfg.Name with
         | some (_ :: _) => true
         | _ => false)) } := by
  rw [bindNormalField]
  simp only [hk]

theorem bindNormalField_float_err (m : List (String × List String)) (cfg : FieldConfig)
    (f : Field) (v : String) (rest : List String) (hk : f.val.kind? = some .kfloat)
    (hl : lookupForm m cfg.Name = some (v :: rest)) (hp : parseFloatRat v = none) :
    bindNormalField m cfg f =
      .error ("vee: cannot parse '" ++ v ++ "' as float for field '" ++ cfg.Name ++ "'") := by
  rw [bindNormalField]
  simp only [hk, hl, hp]

theorem bindNormalField_time_err (m : List (String × List String)) (cfg : FieldConfig)
    (f : Field) (v : String) (rest : List String) (hk : f.val.kind? = some .ktime)
    (hl : lookupForm m cfg.Name = some (v :: rest))
    (hp : parseGoTime (timeInputType cfg) v = none) :
    bindNormalField m cfg f =
      .error ("vee: cannot parse '" ++ v ++ "' as time for field '" ++ cfg.Name ++ "'") := by
  rw [bindNormalField]
  simp only [hk, hl, hp]

theorem bindNormalField_dur_err (m : List (String × List String)) (cfg : FieldConfig)
    (f : Field) (v : String) (rest : List String) (hk : f.val.kind? = some .kdur)
    (hl : lookupForm m cfg.Name = some (v :: rest)) (hp : parseGoDuration cfg v = none) :
    bindNormalField m cfg f =
      .error ("vee: cannot parse '" ++ v ++ "' as duration for field '" ++ cfg.Name ++ "'") := by
  rw [bindNormalField]
  simp only [hk, hl, hp]

theorem bindMultiValueField_absent (m : List (String × List String)) (pair : CCPair)
    (cfg : FieldConfig) (f : Field) (hl : lookupForm m cfg.Name = none) :
    bindMultiValueField m pair cfg f = .ok f := by
  rw [bindMultiValueField]
  simp only [hl]

theorem bindField_choices (m : List (String × List String)) (pairs : List (String × CCPair))
    (f : Field) (b : String) (h : classifyName f.name = .choices b) :
    bindField m pairs f = .ok f := by
  rw [bindField]
  cases hskip : (parseVeeTag f.tag f.name).Skip
  · simp only [hskip, Bool.false_eq_true, if_false, h]
  · simp only [hskip, if_true]

theorem bindField_chosen_pair (m : List (String × List String))
    (pairs : List (String × CCPair)) (f : Field) (b : String) (pair : CCPair)
    (hskip : (parseVeeTag f.tag f.name).Skip = false)
    (h : classifyName f.name = .chosen b) (hp : lookupCC pairs b = some pair) :
    bindField m pairs f = bindMultiValueField m pair (parseVeeTag f.tag f.name) f := by
  rw [bindField]
  simp only [hskip, Bool.false_eq_true, if_false, h, hp]

theorem bindField_skip (m : List (String × List String)) (pairs : List (String × CCPair))
    (f : Field) (hskip : (parseVeeTag f.tag f.name).Skip = true) :
    bindField m pairs f = .ok f := by
  rw [bindField]
  simp only [hskip, if_true]

theorem bindField_unchanged_of_absent (m : List (String × List String))
    (pairs : List (String × CCPair)) (f : Field)
    (habs : lookupForm m (parseVeeTag f.tag f.name).Name = none)
    (hk : f.val.kind? ≠ some .kbool) : bindField m pairs f = .ok f := by
  cases hskip : (parseVeeTag f.tag f.name).Skip
  · cases hc : classifyName f.name with
    | choices b => exact bindField_choices m pairs f b hc
    | chosen b =>
      rw [bindField]
      simp only [hskip, Bool.false_eq_true, if_false, hc]
      cases hcc : lookupCC pairs b with
      | some pair => exact bindMultiValueField_absent m pair _ f habs
      | none => exact bindNormalField_absent m _ f habs hk
    | normal =>
      rw [bindField_normal m pairs f hskip hc]
      exact bindNormalField_absent m _ f habs hk
  · exact bindField_skip m pairs f hskip

theorem bindFields_get_unchanged (m : List (String × List String))
    (pairs : List (String × CCPair)) (l : List Field) (i : Nat) (f : Field)
    (hg : l[i]? = some f) (hb : bindField m pairs f = .ok f) :
    (bindFields m pairs l).2[i]? = some f := by
  induction l generalizing i with
  | nil => simp at hg
  | cons g rest ih =>
    rw [bindFields]
    cases hbg : bindField m pairs g with
    | error e => exact hg
    | ok g' =>
      cases i with
      | zero =>
        simp only [List.getElem?_cons_zero, Option.some.injEq] at hg
        have hgf : g' = f := by
          rw [hg] at hbg
          exact (Except.ok.injEq _ _).mp (hbg.symm.trans hb)
        subst hgf
        cases hrest : bindFields m pairs rest with
        | mk r rest' => cases r <;> simp
      | succ j =>
        simp only [List.getElem?_cons_succ] at hg
        have := ih j hg
        cases hrest : bindFields m pairs rest with
        | mk r rest' =>
          rw [hrest] at this
          cases r <;> simpa using this

theorem bindFields_get_ok (m : List (String × List String))
    (pairs : List (String × CCPair)) (l : List Field)
    (hnone : (bindFields m pairs l).1 = none) (i : Nat) (f : Field) (hg : l[i]? = some f) :
    ∃ f', bindField m pairs f = .ok f' ∧ (bindFields m pairs l).2[i]? = some f' := by
  induction l generalizing i with
  | nil => simp at hg
  | cons g rest ih =>
    rw [bindFields] at hnone ⊢
    cases hbg : bindField m pairs g with
    | error e => rw [hbg] at hnone; simp at hnone
    | ok g' =>
      rw [hbg] at hnone
      cases hrest : bindFields m pairs rest with
      | mk r rest' =>
        rw [hrest] at hnone
        cases r with
        | some e => simp at hnone
        | none =>
          cases i with
          | zero =>
            simp only [List.getElem?_cons_zero, Option.some.injEq] at hg
            subst hg
            exact ⟨g', hbg, by simp⟩
          | succ j =>
            simp only [List.getElem?_cons_succ] at hg
            obtain ⟨f', hf1, hf2⟩ := ih (by rw [hrest]) j hg
            rw [hrest] at hf2
            exact ⟨f', hf1, by simpa using hf2⟩

/-! ## Supporting lemmas: Choices/Chosen validation -/

theorem buildPairs_error_propagates (sf : List (String × Field))
    (l : List (String × Field)) (ps : List (String × CCPair))
    (h : buildPairs sf l = .ok ps) :
    ∀ p ∈ l, ∃ q, lookupBase sf p.1 = some q ∧ ∃ pr, checkPair p.2 q = .ok pr := by
  induction l generalizing ps with
  | nil => intro p hp; simp at hp
  | cons hd rest ih =>
    obtain ⟨b, cf⟩ := hd
    intro p hp
    rw [buildPairs] at h
    split at h
    · simp at h
    · next q hl =>
      split at h
      · simp at h
      · next pr hcp =>
        split at h
        · simp at h
        · next ps' hbp =>
          rcases List.mem_cons.mp hp with rfl | hmem
          · exact ⟨q, hl, pr, hcp⟩
          · exact ih ps' hbp p hmem

theorem buildPairs_first_unpaired (sf : List (String × Field)) (l : List (String × Field))
    (hclean : ∀ p ∈ l, ∀ q, lookupBase sf p.1 = some q → ∃ pr, checkPair p.2 q = .ok pr)
    (hex : ∃ p ∈ l, lookupBase sf p.1 = none) :
    ∃ b f, (b, f) ∈ l ∧ lookupBase sf b = none ∧
      buildPairs sf l = .error (msgNeedsChosen f b) := by
  induction l with
  | nil => obtain ⟨p, hp, _⟩ := hex; simp at hp
  | cons hd rest ih =>
    cases hl : lookupBase sf hd.1 with
    | none =>
      refine ⟨hd.1, hd.2, List.mem_cons_self hd rest, hl, ?_⟩
      rw [buildPairs.eq_def]
      cases hd
      simp only [hl]
    | some q =>
      obtain ⟨pr, hpr⟩ := hclean hd (List.mem_cons_self hd rest) q hl
      have hex' : ∃ p ∈ rest, lookupBase sf p.1 = none := by
        obtain ⟨p, hp, hpl⟩ := hex
        rcases List.mem_cons.mp hp with rfl | hmem
        · rw [hl] at hpl; simp at hpl
        · exact ⟨p, hmem, hpl⟩
      obtain ⟨b, f, hmem, hnone, heq⟩ :=
        ih (fun p hp q hq => hclean p (List.mem_cons_of_mem hd hp) q hq) hex'
      refine ⟨b, f, List.mem_cons_of_mem hd hmem, hnone, ?_⟩
      rw [buildPairs.eq_def]
      cases hd
      simp only [hl, hpr, heq]

theorem buildPairs_all_paired (sf : List (String × Field)) (l : List (String × Field))
    (ps : List (String × CCPair)) (h : buildPairs sf l = .ok ps) :
    ∀ p ∈ l, (lookupBase sf p.1).isSome := by
  intro p hp
  obtain ⟨q, hq, _⟩ := buildPairs_error_propagates sf l ps h p hp
  rw [hq]; rfl

theorem orphanChosen_none_of (cf : List (String × Field)) (l : List (String × Field))
    (h : ∀ p ∈ l, (lookupBase cf p.1).isSome) : orphanChosen cf l = none := by
  induction l with
  | nil => rfl
  | cons hd rest ih =>
    rw [orphanChosen.eq_def]
    cases hd with
    | mk b g =>
      simp only
      rw [if_pos (h (b, g) (List.mem_cons_self _ _))]
      exact ih fun p hp => h p (List.mem_cons_of_mem _ hp)

theorem orphanChosen_first (cf : List (String × Field)) (l : List (String × Field))
    (hex : ∃ p ∈ l, lookupBase cf p.1 = none) :
    ∃ b f, (b, f) ∈ l ∧ lookupBase cf b = none ∧
      orphanChosen cf l = some (msgNeedsChoices f b) := by
  induction l with
  | nil => obtain ⟨p, hp, _⟩ := hex; simp at hp
  | cons hd rest ih =>
    cases hl : lookupBase cf hd.1 with
    | none =>
      refine ⟨hd.1, hd.2, List.mem_cons_self hd rest, hl, ?_⟩
      rw [orphanChosen.eq_def]
      cases hd
      simp only
      rw [if_neg (by rw [hl]; simp)]
    | some q =>
      have hex' : ∃ p ∈ rest, lookupBase cf p.1 = none := by
        obtain ⟨p, hp, hpl⟩ := hex
        rcases List.mem_cons.mp hp with rfl | hmem
        · rw [hl] at hpl; simp at hpl
        · exact ⟨p, hmem, hpl⟩
      obtain ⟨b, f, hmem, hnone, heq⟩ := ih hex'
      refine ⟨b, f, List.mem_cons_of_mem hd hmem, hnone, ?_⟩
      rw [orphanChosen.eq_def]
      cases hd
      simp only
      rw [if_pos (by rw [hl]; rfl), heq]

theorem badIndex_none_inRange (cv : GoVal) (n : Nat) (cs : List String)
    (hn : cs.length = n) (hbad : badIndex cv n = none) (a b : String) (im : Bool) :
    pairInRange ⟨a, b, cs, cv, im⟩ = true := by
  subst hn
  cases cv with
  | intSlice xs =>
    simp only [badIndex, firstBadIndex, List.find?_eq_none] at hbad
    simp only [pairInRange, List.all_eq_true]
    intro i hi
    have hx := hbad i hi
    simp only [Bool.or_eq_true, decide_eq_true_eq, not_or] at hx
    simp only [Bool.and_eq_true, decide_eq_true_eq]
    omega
  | base v =>
    cases v with
    | vint i =>
      simp only [badIndex] at hbad
      split at hbad
      · simp at hbad
      · next hc =>
        simp only [Bool.or_eq_true, decide_eq_true_eq, not_or] at hc
        simp only [pairInRange, Bool.and_eq_true, decide_eq_true_eq]
        omega
    | vstr s => rfl
    | vfloat q => rfl
    | vbool b2 => rfl
    | vtime t => rfl
    | vdur d => rfl
  | ptr k ov => rfl
  | strSlice xs => rfl

theorem checkPair_ok_inRange (cf sf : Field) (pr : CCPair)
    (h : checkPair cf sf = .ok pr) : pairInRange pr = true := by
  rw [checkPair] at h
  split at h
  · simp at h
  · next cs hcs =>
    split at h
    · simp at h
    · next isMulti cv hshape =>
      split at h
      · simp at h
      · next hlen =>
        split at h
        · simp at h
        · next hbad =>
          have hpr : pr = ⟨cf.name, sf.name, cs, cv, isMulti⟩ :=
            ((Except.ok.injEq _ _).mp h).symm
          subst hpr
          exact badIndex_none_inRange cv cs.length cs rfl hbad _ _ _

theorem buildPairs_ok_of (sf : List (String × Field)) (l : List (String × Field))
    (h : ∀ p ∈ l, ∃ q, lookupBase sf p.1 = some q ∧ ∃ pr, checkPair p.2 q = .ok pr) :
    ∃ ps, buildPairs sf l = .ok ps := by
  induction l with
  | nil => exact ⟨[], rfl⟩
  | cons hd rest ih =>
    obtain ⟨b, cf⟩ := hd
    obtain ⟨q, hq, pr, hpr⟩ := h (b, cf) (List.mem_cons_self _ _)
    obtain ⟨ps, hps⟩ := ih fun p hp => h p (List.mem_cons_of_mem _ hp)
    refine ⟨(b, pr) :: ps, ?_⟩
    rw [buildPairs]
    simp only [hq, hpr, hps]

theorem buildPairs_inRange (sf : List (String × Field)) (l : List (String × Field))
    (ps : List (String × CCPair)) (h : buildPairs sf l = .ok ps) :
    ∀ bp ∈ ps, pairInRange bp.2 = true := by
  induction l generalizing ps with
  | nil =>
    rw [buildPairs] at h
    have : ps = [] := ((Except.ok.injEq _ _).mp h).symm
    subst this
    intro bp hbp
    simp at hbp
  | cons hd rest ih =>
    obtain ⟨b, cf⟩ := hd
    rw [buildPairs] at h
    split at h
    · simp at h
    · next q hl =>
      split at h
      · simp at h
      · next pr hcp =>
        split at h
        · simp at h
        · next ps' hbp =>
          have : ps = (b, pr) :: ps' := ((Except.ok.injEq _ _).mp h).symm
          subst this
          intro bp hbpm
          rcases List.mem_cons.mp hbpm with rfl | hmem
          · exact checkPair_ok_inRange cf q pr hcp
          · exact ih ps' hbp bp hmem

theorem orphanChosen_none_mem (cf : List (String × Field)) (l : List (String × Field))
    (h : orphanChosen cf l = none) : ∀ p ∈ l, (lookupBase cf p.1).isSome := by
  induction l with
  | nil => intro p hp; simp at hp
  | cons hd rest ih =>
    intro p hp
    rw [orphanChosen.eq_def] at h
    cases hd with
    | mk b g =>
      simp only at h
      split at h
      · next hs =>
        rcases List.mem_cons.mp hp with rfl | hmem
        · exact hs
        · exact ih h p hmem
      · simp at h

theorem validate_ok_inRange (rec : List Field) (ps : List (String × CCPair))
    (h : validateChoicesChosen rec = .ok ps) : ∀ bp ∈ ps, pairInRange bp.2 = true := by
  rw [validateChoicesChosen] at h
  split at h
  · simp at h
  · next ps0 hbp =>
    split at h
    · simp at h
    · have : ps0 = ps := (Except.ok.injEq _ _).mp h
      subst this
      exact buildPairs_inRange _ _ _ hbp

theorem validate_unpaired (rec : List Field)
    (hclean : ∀ p ∈ collectChoices rec, ∀ q,
      lookupBase (collectChosen rec) p.1 = some q → ∃ pr, checkPair p.2 q = .ok pr)
    (hex : (∃ p ∈ collectChoices rec, lookupBase (collectChosen rec) p.1 = none) ∨
      (∃ p ∈ collectChosen rec, lookupBase (collectChoices rec) p.1 = none)) :
    ∃ msg, validateChoicesChosen rec = .error msg ∧
      ((∃ b f, (b, f) ∈ collectChoices rec ∧ lookupBase (collectChosen rec) b = none ∧
        msg = msgNeedsChosen f b) ∨
       (∃ b f, (b, f) ∈ collectChosen rec ∧ lookupBase (collectChoices rec) b = none ∧
        msg = msgNeedsChoices f b)) := by
  by_cases hu : ∃ p ∈ collectChoices rec, lookupBase (collectChosen rec) p.1 = none
  · obtain ⟨b, f, hmem, hnone, heq⟩ := buildPairs_first_unpaired _ _ hclean hu
    refine ⟨msgNeedsChosen f b, ?_, .inl ⟨b, f, hmem, hnone, rfl⟩⟩
    rw [validateChoicesChosen]
    simp only [heq]
  · have hall : ∀ p ∈ collectChoices rec, ∃ q,
        lookupBase (collectChosen rec) p.1 = some q ∧ ∃ pr, checkPair p.2 q = .ok pr := by
      intro p hp
      cases hl : lookupBase (collectChosen rec) p.1 with
      | none => exact absurd ⟨p, hp, hl⟩ hu
      | some q => exact ⟨q, rfl, hclean p hp q hl⟩
    obtain ⟨ps, hps⟩ := buildPairs_ok_of _ _ hall
    have hex2 : ∃ p ∈ collectChosen rec, lookupBase (collectChoices rec) p.1 = none :=
      hex.resolve_left hu
    obtain ⟨b, f, hmem, hnone, ho⟩ := orphanChosen_first _ _ hex2
    refine ⟨msgNeedsChoices f b, ?_, .inr ⟨b, f, hmem, hnone, rfl⟩⟩
    rw [validateChoicesChosen]
    simp only [hps, ho]

theorem validate_never_ok_of_unpaired (rec : List Field) (ps : List (String × CCPair))
    (h : validateChoicesChosen rec = .ok ps)
    (hex : (∃ p ∈ collectChoices rec, lookupBase (collectChosen rec) p.1 = none) ∨
      (∃ p ∈ collectChosen rec, lookupBase (collectChoices rec) p.1 = none)) : False := by
  rw [validateChoicesChosen] at h
  split at h
  · simp at h
  · next ps0 hbp =>
    split at h
    · simp at h
    · next ho =>
      rcases hex with ⟨p, hp, hl⟩ | ⟨p, hp, hl⟩
      · have := buildPairs_all_paired _ _ _ hbp p hp
        rw [hl] at this
        simp at this
      · have := orphanChosen_none_mem _ _ ho p hp
        rw [hl] at this
        simp at this

theorem Bind_validate_error (m : List (String × List String)) (rec : List Field)
    (e : String) (h : validateChoicesChosen rec = .error e) : Bind m rec = (some e, rec) := by
  rw [Bind]
  simp only [h]

theorem Render_validate_error (rec : List Field) (opts : RenderOption) (e : String)
    (hpre : hiddenPrePass rec = none) (h : validateChoicesChosen rec = .error e) :
    Render rec opts = .error e := by
  rw [Render]
  simp only [hpre, h]

/-! ## Supporting lemmas: validation ignores field metadata -/

theorem retagField_name (g h : Field → String) (f : Field) :
    (retagField g h f).name = f.name := rfl

theorem retagField_val (g h : Field → String) (f : Field) :
    (retagField g h f).val = f.val := rfl

theorem collectChoices_retag (g h : Field → String) (rec : List Field) :
    collectChoices (rec.map (retagField g h)) =
      (collectChoices rec).map fun p => (p.1, retagField g h p.2) := by
  induction rec with
  | nil => rfl
  | cons f rest ih =>
    simp only [List.map_cons, collectChoices, List.filterMap_cons] at ih ⊢
    rw [retagField_name]
    cases classifyName f.name <;> simp [ih]

theorem collectChosen_retag (g h : Field → String) (rec : List Field) :
    collectChosen (rec.map (retagField g h)) =
      (collectChosen rec).map fun p => (p.1, retagField g h p.2) := by
  induction rec with
  | nil => rfl
  | cons f rest ih =>
    simp only [List.map_cons, collectChosen, List.filterMap_cons] at ih ⊢
    rw [retagField_name]
    cases classifyName f.name <;> simp [ih]

theorem lookupBase_retag (g h : Field → String) (l : List (String × Field)) (b : String) :
    lookupBase (l.map fun p => (p.1, retagField g h p.2)) b =
      (lookupBase l b).map (retagField g h) := by
  induction l with
  | nil => rfl
  | cons hd rest ih =>
    obtain ⟨b0, f0⟩ := hd
    simp only [List.map_cons, lookupBase]
    split
    · rfl
    · exact ih

theorem checkPair_retag (g h : Field → String) (cf sf : Field) :
    checkPair (retagField g h cf) (retagField g h sf) = checkPair cf sf := by
  cases cf with
  | mk n t c v =>
    cases sf with
    | mk n2 t2 c2 v2 => rfl

theorem buildPairs_retag (g h : Field → String) (sf l : List (String × Field)) :
    buildPairs (sf.map fun p => (p.1, retagField g h p.2))
      (l.map fun p => (p.1, retagField g h p.2)) = buildPairs sf l := by
  induction l with
  | nil => rfl
  | cons hd rest ih =>
    obtain ⟨b, cf⟩ := hd
    simp only [List.map_cons]
    rw [buildPairs, buildPairs, lookupBase_retag]
    cases hl : lookupBase sf b with
    | none => rfl
    | some q =>
      simp only [Option.map_some']
      rw [checkPair_retag, ih]

theorem orphanChosen_retag (g h : Field → String) (cf l : List (String × Field)) :
    orphanChosen (cf.map fun p => (p.1, retagField g h p.2))
      (l.map fun p => (p.1, retagField g h p.2)) = orphanChosen cf l := by
  induction l with
  | nil => rfl
  | cons hd rest ih =>
    obtain ⟨b, f⟩ := hd
    simp only [List.map_cons]
    rw [orphanChosen, orphanChosen, lookupBase_retag]
    cases hl : lookupBase cf b with
    | none =>
      simp only [Option.map_none', Option.isSome_none, Bool.false_eq_true, if_false]
      rfl
    | some q => simp only [Option.map_some', Option.isSome_some, if_true, ih]

theorem validate_retag (g h : Field → String) (rec : List Field) :
    validateChoicesChosen (rec.map (retagField g h)) = validateChoicesChosen rec := by
  rw [validateChoicesChosen, validateChoicesChosen, collectChoices_retag,
    collectChosen_retag, buildPairs_retag, orphanChosen_retag]

/-! ## Supporting lemmas: the hidden pre-pass -/

theorem findSome?_of_mem {α β : Type} (l : List α) (f : α → Option β) (a : α)
    (ha : a ∈ l) (hb : (f a).isSome) :
    ∃ g e, g ∈ l ∧ f g = some e ∧ l.findSome? f = some e := by
  induction l with
  | nil => simp at ha
  | cons hd rest ih =>
    cases hg : f hd with
    | some e =>
      exact ⟨hd, e, List.mem_cons_self _ _, hg, by rw [List.findSome?_cons, hg]⟩
    | none =>
      have ha' : a ∈ rest := by
        rcases List.mem_cons.mp ha with rfl | hmem
        · rw [hg] at hb; simp at hb
        · exact hmem
      obtain ⟨g, e, hmem, hfg, hfind⟩ := ih ha'
      exact ⟨g, e, List.mem_cons_of_mem _ hmem, hfg,
        by rw [List.findSome?_cons, hg, hfind]⟩

theorem hiddenFieldError_isSome (f : Field)
    (hskip : (parseVeeTag f.tag f.name).Skip = false)
    (hh : (parseVeeTag f.tag f.name).Hidden = true)
    (hbad : (∃ k ov, f.val = .ptr k ov) ∨ (∃ xs, f.val = .strSlice xs) ∨
      (∃ xs, f.val = .intSlice xs) ∨ strEndsWith f.name "Choices" = true ∨
      strEndsWith f.name "Chosen" = true) :
    (hiddenFieldError f).isSome := by
  obtain ⟨n, t, c, v⟩ := f
  rw [hiddenFieldError]
  simp only [hskip, Bool.false_eq_true, if_false, hh, if_true]
  simp only at hbad
  rcases hbad with ⟨k, ov, hv⟩ | ⟨xs, hv⟩ | ⟨xs, hv⟩ | hn | hn
  · subst hv; rfl
  · subst hv
    by_cases hcond : strEndsWith n "Choices" = true ∨ strEndsWith n "Chosen" = true
    · rw [if_pos hcond]; rfl
    · rw [if_neg hcond]; rfl
  · subst hv
    by_cases hcond : strEndsWith n "Choices" = true ∨ strEndsWith n "Chosen" = true
    · rw [if_pos hcond]; rfl
    · rw [if_neg hcond]; rfl
  · cases v
    · rw [if_pos (Or.inl hn)]; rfl
    · rfl
    · rw [if_pos (Or.inl hn)]; rfl
    · rw [if_pos (Or.inl hn)]; rfl
  · cases v
    · rw [if_pos (Or.inr hn)]; rfl
    · rfl
    · rw [if_pos (Or.inr hn)]; rfl
    · rw [if_pos (Or.inr hn)]; rfl

theorem Render_hidden_error (rec : List Field) (opts : RenderOption) (e : String)
    (h : hiddenPrePass rec = some e) : Render rec opts = .error e := by
  rw [Render]
  simp only [h]

/-! ## Supporting lemmas: the metadata parser -/

theorem getAttr_insertAttr (l : List (String × String)) (k v key : String) :
    getAttr (insertAttr l k v) key = if k = key then some v else getAttr l key := by
  induction l with
  | nil => rfl
  | cons hd rest ih =>
    obtain ⟨k0, v0⟩ := hd
    rw [insertAttr]
    split
    · next hk0 =>
      subst hk0
      rw [getAttr, getAttr]
      by_cases hk : k0 = key
      · rw [if_pos hk, if_pos hk]
      · rw [if_neg hk, if_neg hk, if_neg hk]
    · next hk0 =>
      rw [getAttr, getAttr, ih]
      by_cases hk : k = key
      · subst hk
        rw [if_pos rfl, if_pos rfl, if_neg fun h => hk0 h]
      · rw [if_neg hk, if_neg hk]

theorem getAttr_append (a b : List (String × String)) (key : String) :
    getAttr (a ++ b) key =
      match getAttr a key with
      | some v => some v
      | none => getAttr b key := by
  induction a with
  | nil => rw [List.nil_append, getAttr]
  | cons hd rest ih =>
    obtain ⟨k0, v0⟩ := hd
    rw [List.cons_append, getAttr, getAttr]
    split
    · rfl
    · exact ih

theorem applyTagPart_Name (cfg : FieldConfig) (p : String) :
    (applyTagPart cfg p).Name = cfg.Name := by
  rw [applyTagPart]
  split
  · rfl
  · split
    · rfl
    · split
      · rfl
      · split
        · rfl
        · rfl

theorem foldl_applyTagPart_Name (ps : List String) (cfg : FieldConfig) :
    (ps.foldl applyTagPart cfg).Name = cfg.Name := by
  induction ps generalizing cfg with
  | nil => rfl
  | cons p rest ih => rw [List.foldl_cons, ih, applyTagPart_Name]

theorem applyTagPart_NoLabel (cfg : FieldConfig) (p : String) :
    (applyTagPart cfg p).NoLabel = (cfg.NoLabel || (strTrim p == "nolabel")) := by
  simp only [applyTagPart]
  by_cases h1 : strTrim p = ""
  · rw [if_pos h1]
    rw [show (strTrim p == "nolabel") = false from by
      rw [beq_eq_false_iff_ne, h1]; decide]
    rw [Bool.or_false]
  · rw [if_neg h1]
    by_cases h2 : strContains (strTrim p) ':' = true
    · rw [if_pos h2]
      rw [show (strTrim p == "nolabel") = false from by
        rw [beq_eq_false_iff_ne]
        intro he
        rw [he] at h2
        exact absurd h2 (by decide)]
      rw [Bool.or_false]
    · rw [if_neg h2]
      by_cases h3 : strTrim p = "nolabel"
      · rw [if_pos h3, show (strTrim p == "nolabel") = true from by rw [h3]; rfl,
          Bool.or_true]
      · rw [if_neg h3]
        by_cases h4 : strTrim p = "hidden"
        · rw [if_pos h4, show (strTrim p == "nolabel") = false from
            beq_eq_false_iff_ne.mpr h3, Bool.or_false]
        · rw [if_neg h4, show (strTrim p == "nolabel") = false from
            beq_eq_false_iff_ne.mpr h3, Bool.or_false]

theorem foldl_applyTagPart_NoLabel (ps : List String) (cfg : FieldConfig) :
    (ps.foldl applyTagPart cfg).NoLabel =
      (cfg.NoLabel || ps.any fun p => strTrim p == "nolabel") := by
  induction ps generalizing cfg with
  | nil => rw [List.foldl_nil, List.any_nil, Bool.or_false]
  | cons p rest ih =>
    rw [List.foldl_cons, ih, applyTagPart_NoLabel, List.any_cons, Bool.or_assoc]

theorem applyTagPart_Hidden (cfg : FieldConfig) (p : String) :
    (applyTagPart cfg p).Hidden = (cfg.Hidden || (strTrim p == "hidden")) := by
  simp only [applyTagPart]
  by_cases h1 : strTrim p = ""
  · rw [if_pos h1]
    rw [show (strTrim p == "hidden") = false from by
      rw [beq_eq_false_iff_ne, h1]; decide]
    rw [Bool.or_false]
  · rw [if_neg h1]
    by_cases h2 : strContains (strTrim p) ':' = true
    · rw [if_pos h2]
      rw [show (strTrim p == "hidden") = false from by
        rw [beq_eq_false_iff_ne]
        intro he
        rw [he] at h2
        exact absurd h2 (by decide)]
      rw [Bool.or_false]
    · rw [if_neg h2]
      by_cases h3 : strTrim p = "nolabel"
      · rw [if_pos h3, show (strTrim p == "hidden") = false from by
          rw [beq_eq_false_iff_ne, h3]; decide, Bool.or_false]
      · rw [if_neg h3]
        by_cases h4 : strTrim p = "hidden"
        · rw [if_pos h4, show (strTrim p == "hidden") = true from by rw [h4]; rfl,
            Bool.or_true]
        · rw [if_neg h4, show (strTrim p == "hidden") = false from
            beq_eq_false_iff_ne.mpr h4, Bool.or_false]

theorem foldl_applyTagPart_Hidden (ps : List String) (cfg : FieldConfig) :
    (ps.foldl applyTagPart cfg).Hidden =
      (cfg.Hidden || ps.any fun p => strTrim p == "hidden") := by
  induction ps generalizing cfg with
  | nil => rw [List.foldl_nil, List.any_nil, Bool.or_false]
  | cons p rest ih =>
    rw [List.foldl_cons, ih, applyTagPart_Hidden, List.any_cons, Bool.or_assoc]

theorem applyTagPart_attrs (cfg : FieldConfig) (p : String) :
    (applyTagPart cfg p).Attributes =
      match specSegmentAttr p with
      | none => cfg.Attributes
      | some (k, v) => insertAttr cfg.Attributes k v := by
  rw [applyTagPart, specSegmentAttr]
  split
  · rfl
  · split
    · rfl
    · split
      · rfl
      · split
        · rfl
        · rfl

theorem foldl_applyTagPart_attrs (ps : List String) (cfg : FieldConfig) (key : String) :
    getAttr (ps.foldl applyTagPart cfg).Attributes key =
      match getAttr (ps.filterMap specSegmentAttr).reverse key with
      | some v => some v
      | none => getAttr cfg.Attributes key := by
  induction ps generalizing cfg with
  | nil => rw [List.foldl_nil, List.filterMap_nil, List.reverse_nil, getAttr]
  | cons p rest ih =>
    rw [List.foldl_cons, ih, List.filterMap_cons]
    cases hseg : specSegmentAttr p with
    | none => rw [applyTagPart_attrs, hseg]
    | some kv =>
      obtain ⟨k, v⟩ := kv
      rw [applyTagPart_attrs, hseg, List.reverse_cons, getAttr_append, getAttr_insertAttr]
      cases hr : getAttr (rest.filterMap specSegmentAttr).reverse key with
      | some w => rfl
      | none =>
        simp only
        rw [getAttr]
        split
        · rfl
        · rfl

/-! ## Claims -/

/-- C1, amended. Round-trip fidelity holds per scalar kind with the
precision the rendered control carries: strings and booleans round-trip
unconditionally (a boolean rendered false binds back to false via key
absence), integers round-trip across the int64 carrier, instants
round-trip exactly when the value carries no information below the
default datetime-local control's minute precision (zero instants
round-trip via value suppression and key absence), and durations
round-trip exactly when the value is a whole multiple of the configured
unit (here the default seconds; zero durations via suppression). The
original claim's "for any value x of that kind" fails for sub-precision
temporal values. -/
theorem claim_C1_roundtrip :
    (∀ s : String, RoundTrips (.vstr s)) ∧
    (∀ n : Int, int64Min ≤ n → n ≤ int64Max → RoundTrips (.vint n)) ∧
    (∀ b : Bool, RoundTrips (.vbool b)) ∧
    (∀ t : GoTime, validTime t → t.year ≤ 9999 → t.sec = 0 → t.nsec = 0 →
      RoundTrips (.vtime t)) ∧
    (∀ d q : Int, d = q * 1000000000 → int64Min ≤ d → d ≤ int64Max →
      RoundTrips (.vdur d)) := by
  refine ⟨?_, ?_, ?_, ?_, ?_⟩
  · intro s
    by_cases hz : s = ""
    · subst hz; rw [RoundTrips]; decide
    · have hsub : controlSubmission (rtField (.vstr s)) =
          if s = "" then [] else [("x", [s])] := rfl
      have hfresh : freshField (rtField (.vstr s)) = ⟨"X", "", "", .base (.vstr "")⟩ := rfl
      rw [RoundTrips, hsub, if_neg hz, hfresh]
      refine Bind_single_ok _ _ _ rfl ?_
      rw [bindField_normal [("x", [s])] [] ⟨"X", "", "", .base (.vstr "")⟩ rfl rfl]
      exact bindNormalField_str _ _ _ s [] rfl (lookupForm_self _ _ _)
  · intro n h1 h2
    have hsub : controlSubmission (rtField (.vint n)) = [("x", [formatInt n])] := rfl
    have hfresh : freshField (rtField (.vint n)) = ⟨"X", "", "", .base (.vint 0)⟩ := rfl
    rw [RoundTrips, hsub, hfresh]
    refine Bind_single_ok _ _ _ rfl ?_
    rw [bindField_normal [("x", [formatInt n])] [] ⟨"X", "", "", .base (.vint 0)⟩ rfl rfl]
    exact bindNormalField_int_ok _ _ _ _ [] n rfl (lookupForm_self _ _ _)
      (parseGoInt_formatInt n h1 h2)
  · intro b
    cases b
    · rw [RoundTrips]; decide
    · rw [RoundTrips]; decide
  · intro t h hy hs hn
    by_cases hz : t = zeroTime
    · subst hz; rw [RoundTrips]; decide
    · have hsub : controlSubmission (rtField (.vtime t)) =
          if t = zeroTime then [] else [("x", [formatTimeInput "datetime-local" t])] := rfl
      have hfresh : freshField (rtField (.vtime t)) =
          ⟨"X", "", "", .base (.vtime zeroTime)⟩ := rfl
      rw [RoundTrips, hsub, if_neg hz, hfresh]
      refine Bind_single_ok _ _ _ rfl ?_
      rw [bindField_normal [("x", [formatTimeInput "datetime-local" t])] []
        ⟨"X", "", "", .base (.vtime zeroTime)⟩ rfl rfl]
      exact bindNormalField_time_ok _ _ _ _ [] t rfl (lookupForm_self _ _ _)
        (parseGoTime_format_dtl t h hy hs hn)
  · intro d q hq _h1 _h2
    by_cases hz : d = 0
    · subst hz; rw [RoundTrips]; decide
    · have hsub : controlSubmission (rtField (.vdur d)) =
          if d = 0 then [] else [("x", [formatDurVal d "s"])] := rfl
      have hfresh : freshField (rtField (.vdur d)) = ⟨"X", "", "", .base (.vdur 0)⟩ := rfl
      rw [RoundTrips, hsub, if_neg hz, hfresh]
      refine Bind_single_ok _ _ _ rfl ?_
      rw [bindField_normal [("x", [formatDurVal d "s"])] []
        ⟨"X", "", "", .base (.vdur 0)⟩ rfl rfl]
      have hp : parseGoDuration (parseVeeTag "" "X") (formatDurVal d "s") = some d := by
        rw [formatDurVal, parseGoDuration]
        have hdd : d.tdiv (unitNanos "s") = q := by
          rw [show unitNanos "s" = 1000000000 from rfl]
          subst hq
          exact Int.mul_tdiv_cancel q (by norm_num)
        rw [hdd, parseDecTrunc_formatInt q]
        show some (q * unitNanos (durUnits (parseVeeTag "" "X"))) = some d
        rw [show durUnits (parseVeeTag "" "X") = "s" from rfl,
          show unitNanos "s" = 1000000000 from rfl]
        congr 1
        omega
      exact bindNormalField_dur_ok _ _ _ _ [] d rfl (lookupForm_self _ _ _) hp

/-- C1 counterexample: the claim as stated fails — a 1500ms duration field
(default unit seconds) renders as "1", and binding that back yields
1000ms, not the original 1500ms. -/
theorem claim_C1_counterexample :
    ¬ RoundTrips (.vdur 1500000000) ∧
    Bind (controlSubmission (rtField (.vdur 1500000000)))
        [freshField (rtField (.vdur 1500000000))] =
      (none, [rtField (.vdur 1000000000)]) := by
  constructor
  · rw [RoundTrips]; decide
  · decide

/-- C1 witness: the amended round-trip at concrete values of each kind. -/
theorem claim_C1_witness :
    RoundTrips (.vstr "John Doe") ∧ RoundTrips (.vint (-42)) ∧
    RoundTrips (.vbool false) ∧ RoundTrips (.vtime ⟨2023, 12, 25, 14, 30, 0, 0⟩) ∧
    RoundTrips (.vdur 60000000000) :=
  ⟨claim_C1_roundtrip.1 "John Doe",
   claim_C1_roundtrip.2.1 (-42) (by decide) (by decide),
   claim_C1_roundtrip.2.2.1 false,
   claim_C1_roundtrip.2.2.2.1 ⟨2023, 12, 25, 14, 30, 0, 0⟩ (by decide) (by decide) rfl rfl,
   claim_C1_roundtrip.2.2.2.2 60000000000 60 (by norm_num) (by decide) (by decide)⟩


/-- C2, amended. Boolean binding is presence-based in the sense of a
present key carrying at least one value string: whenever Bind succeeds on
a record, every non-skipped boolean field (pointer or not) is written
(never left unchanged) with true exactly when the field's external name
maps to a nonempty list of value strings in the input — the strings
themselves are never inspected, so even [""] or ["false"] binds true —
and with false otherwise (for a pointer field, a freshly allocated
pointer-to-false). The original "present as a key" is too weak: a key
mapped to an empty value list binds false. -/
theorem claim_C2_bool_presence (m : List (String × List String)) (rec : List Field)
    (i : Nat) (f : Field) (hg : rec[i]? = some f)
    (hskip : (parseVeeTag f.tag f.name).Skip = false)
    (hc : classifyName f.name = .normal)
    (hk : f.val.kind? = some .kbool)
    (hnone : (Bind m rec).1 = none) :
    ∃ b : Bool,
      (Bind m rec).2[i]? = some { f with val := setScalar f.val (.vbool b) } ∧
      (b = true ↔
        ∃ v rest, lookupForm m (parseVeeTag f.tag f.name).Name = some (v :: rest)) := by
  rw [Bind] at hnone ⊢
  cases hv : validateChoicesChosen rec with
  | error e =>
    rw [hv] at hnone
    exact Option.noConfusion hnone
  | ok pairs =>
    rw [hv] at hnone
    have hnone2 : (bindFields m pairs rec).1 = none := hnone
    obtain ⟨f', hbf, hget⟩ := bindFields_get_ok m pairs rec hnone2 i f hg
    rw [bindField_normal m pairs f hskip hc,
      bindNormalField_bool m (parseVeeTag f.tag f.name) f hk] at hbf
    have hf' : f' = { f with val := setScalar f.val (.vbool
        (match lookupForm m (parseVeeTag f.tag f.name).Name with
         | some (_ :: _) => true
         | _ => false)) } := ((Except.ok.injEq _ _).mp hbf).symm
    subst hf'
    refine ⟨_, hget, ?_⟩
    cases hl : lookupForm m (parseVeeTag f.tag f.name).Name with
    | none =>
      exact ⟨fun hx => Bool.noConfusion hx,
        fun ⟨v1, r1, hvr⟩ => Option.noConfusion hvr⟩
    | some vs =>
      cases vs with
      | nil =>
        exact ⟨fun hx => Bool.noConfusion hx,
          fun ⟨v1, r1, hvr⟩ => Option.noConfusion hvr fun h => List.noConfusion h⟩
      | cons v rest =>
        exact ⟨fun _ => ⟨v, rest, rfl⟩, fun _ => rfl⟩

/-- C2 counterexample to the original statement: the input key "active" is
present (mapped to the empty list of values), yet the boolean field binds
to false, not true — bind.go requires a nonempty value list, not mere key
presence. -/
theorem claim_C2_counterexample :
    lookupForm [("active", ([] : List String))] "active" = some [] ∧
    Bind [("active", ([] : List String))] [⟨"Active", "", "", .base (.vbool true)⟩] =
      (none, [⟨"Active", "", "", .base (.vbool false)⟩]) := by
  constructor
  · decide
  · decide

/-- C2 witness: a present key with one (empty-string) value binds the
boolean field to true. -/
theorem claim_C2_witness :
    ∃ b : Bool,
      (Bind [("active", [""])] [⟨"Active", "", "", .base (.vbool false)⟩]).2[0]? =
        some ⟨"Active", "", "", .base (.vbool b)⟩ ∧
      (b = true ↔
        ∃ v rest, lookupForm [("active", [""])]
          (parseVeeTag "" "Active").Name = some (v :: rest)) :=
  claim_C2_bool_presence [("active", [""])] [⟨"Active", "", "", .base (.vbool false)⟩]
    0 ⟨"Active", "", "", .base (.vbool false)⟩ rfl rfl rfl rfl rfl

/-- C3. Pairing symmetry: a record whose Choices/Chosen fields have an
unpaired member (a Choices base with no Chosen counterpart, or vice versa)
— its properly paired members, if any, being well-formed — never
validates; both Render (given the hidden pre-pass passes) and Bind fail
with the same validation message, Render producing no markup and Bind no
mutation, and the message is the missing-counterpart message naming the
unpaired field and its base. -/
theorem claim_C3_pairing_symmetry (m : List (String × List String)) (rec : List Field)
    (opts : RenderOption)
    (hpre : hiddenPrePass rec = none)
    (hclean : ∀ p ∈ collectChoices rec, ∀ q,
      lookupBase (collectChosen rec) p.1 = some q → ∃ pr, checkPair p.2 q = .ok pr)
    (hex : (∃ p ∈ collectChoices rec, lookupBase (collectChosen rec) p.1 = none) ∨
      (∃ p ∈ collectChosen rec, lookupBase (collectChoices rec) p.1 = none)) :
    (∀ ps, validateChoicesChosen rec ≠ .ok ps) ∧
    ∃ msg, Render rec opts = .error msg ∧ Bind m rec = (some msg, rec) ∧
      ((∃ b f, (b, f) ∈ collectChoices rec ∧ lookupBase (collectChosen rec) b = none ∧
        msg = msgNeedsChosen f b) ∨
       (∃ b f, (b, f) ∈ collectChosen rec ∧ lookupBase (collectChoices rec) b = none ∧
        msg = msgNeedsChoices f b)) := by
  refine ⟨fun ps hok => validate_never_ok_of_unpaired rec ps hok hex, ?_⟩
  obtain ⟨msg, hv, hname⟩ := validate_unpaired rec hclean hex
  exact ⟨msg, Render_validate_error rec opts msg hpre hv,
    Bind_validate_error m rec msg hv, hname⟩

/-- C3 witness: a lone ColorChoices field with no ColorChosen counterpart
errors identically under Render and Bind. -/
theorem claim_C3_witness :
    (∀ ps, validateChoicesChosen [(⟨"ColorChoices", "", "", .strSlice ["a"]⟩ : Field)] ≠
      .ok ps) ∧
    ∃ msg,
      Render [(⟨"ColorChoices", "", "", .strSlice ["a"]⟩ : Field)] {} = .error msg ∧
      Bind [] [(⟨"ColorChoices", "", "", .strSlice ["a"]⟩ : Field)] =
        (some msg, [(⟨"ColorChoices", "", "", .strSlice ["a"]⟩ : Field)]) ∧
      ((∃ b f, (b, f) ∈ collectChoices [(⟨"ColorChoices", "", "", .strSlice ["a"]⟩ : Field)] ∧
        lookupBase (collectChosen [(⟨"ColorChoices", "", "", .strSlice ["a"]⟩ : Field)]) b =
          none ∧
        msg = msgNeedsChosen f b) ∨
       (∃ b f, (b, f) ∈ collectChosen [(⟨"ColorChoices", "", "", .strSlice ["a"]⟩ : Field)] ∧
        lookupBase (collectChoices [(⟨"ColorChoices", "", "", .strSlice ["a"]⟩ : Field)]) b =
          none ∧
        msg = msgNeedsChoices f b)) :=
  claim_C3_pairing_symmetry [] [⟨"ColorChoices", "", "", .strSlice ["a"]⟩] {}
    rfl (fun _ _ q hq => Option.noConfusion hq) (Or.inl (by decide))


/-! ## Supporting lemmas: the index-bounds scenario record -/

theorem checkPair_recPair_bad (cs : List String) (v : Int) (hlen : cs.length ≠ 0)
    (hb : (v < 0 || (cs.length : Int) ≤ v : Bool) = true) :
    checkPair ⟨"FooChoices", "", "", .strSlice cs⟩ ⟨"FooChosen", "", "", .base (.vint v)⟩ =
      .error (msgIndexRange "FooChosen" v cs.length) := by
  have h0 : checkPair ⟨"FooChoices", "", "", .strSlice cs⟩
      ⟨"FooChosen", "", "", .base (.vint v)⟩ =
      if cs.length = 0 then .error (msgEmptyChoices ⟨"FooChoices", "", "", .strSlice cs⟩)
      else
        match badIndex (.base (.vint v)) cs.length with
        | some i => .error (msgIndexRange "FooChosen" i cs.length)
        | none => .ok ⟨"FooChoices", "FooChosen", cs, .base (.vint v), false⟩ := rfl
  rw [h0, if_neg hlen]
  have h1 : badIndex (.base (.vint v)) cs.length =
      if (v < 0 || (cs.length : Int) ≤ v : Bool) then some v else none := rfl
  rw [h1, if_pos hb]

theorem checkPair_recPair_ok (cs : List String) (hlen : cs.length ≠ 0) :
    checkPair ⟨"FooChoices", "", "", .strSlice cs⟩ ⟨"FooChosen", "", "", .base (.vint 0)⟩ =
      .ok ⟨"FooChoices", "FooChosen", cs, .base (.vint 0), false⟩ := by
  have h0 : checkPair ⟨"FooChoices", "", "", .strSlice cs⟩
      ⟨"FooChosen", "", "", .base (.vint 0)⟩ =
      if cs.length = 0 then .error (msgEmptyChoices ⟨"FooChoices", "", "", .strSlice cs⟩)
      else
        match badIndex (.base (.vint 0)) cs.length with
        | some i => .error (msgIndexRange "FooChosen" i cs.length)
        | none => .ok ⟨"FooChoices", "FooChosen", cs, .base (.vint 0), false⟩ := rfl
  rw [h0, if_neg hlen]
  have hb : ((0 : Int) < 0 || (cs.length : Int) ≤ 0 : Bool) = false := by
    simp only [Bool.or_eq_false_iff, decide_eq_false_iff_not]
    constructor
    · omega
    · omega
  have hbn : ¬(((0 : Int) < 0 || (cs.length : Int) ≤ 0 : Bool) = true) := by
    rw [hb]; exact Bool.false_ne_true
  have h1 : badIndex (.base (.vint 0)) cs.length =
      if ((0 : Int) < 0 || (cs.length : Int) ≤ 0 : Bool) then some 0 else none := rfl
  rw [h1, if_neg hbn]

theorem validate_recPair_eq (cs : List String) (v : Int) :
    validateChoicesChosen (recPair cs v) =
      match checkPair ⟨"FooChoices", "", "", .strSlice cs⟩
          ⟨"FooChosen", "", "", .base (.vint v)⟩ with
      | .error e => .error e
      | .ok p => .ok [("Foo", p)] := by
  have hc1 : classifyName "FooChoices" = FClass.choices "Foo" := by decide
  have hc2 : classifyName "FooChosen" = FClass.chosen "Foo" := by decide
  have hsn : collectChosen (recPair cs v) =
      [("Foo", (⟨"FooChosen", "", "", .base (.vint v)⟩ : Field))] := by
    rw [recPair, collectChosen]
    simp only [List.filterMap_cons, List.filterMap_nil, hc1, hc2]
  have hcf : collectChoices (recPair cs v) =
      [("Foo", (⟨"FooChoices", "", "", .strSlice cs⟩ : Field))] := by
    rw [recPair, collectChoices]
    simp only [List.filterMap_cons, List.filterMap_nil, hc1, hc2]
  have hlb : lookupBase [("Foo", (⟨"FooChosen", "", "", .base (.vint v)⟩ : Field))] "Foo" =
      some ⟨"FooChosen", "", "", .base (.vint v)⟩ := by
    rw [lookupBase, if_pos rfl]
  cases hcp : checkPair ⟨"FooChoices", "", "", .strSlice cs⟩
      ⟨"FooChosen", "", "", .base (.vint v)⟩ with
  | error e =>
    rw [validateChoicesChosen]
    have hbp : buildPairs (collectChosen (recPair cs v)) (collectChoices (recPair cs v)) =
        .error e := by
      rw [hsn, hcf, buildPairs, hlb]
      simp only [hcp]
    simp only [hbp]
  | ok p =>
    rw [validateChoicesChosen]
    have hbp : buildPairs (collectChosen (recPair cs v)) (collectChoices (recPair cs v)) =
        .ok [("Foo", p)] := by
      rw [hsn, hcf, buildPairs, hlb]
      simp only [hcp]
      rfl
    simp only [hbp]
    have horph : orphanChosen (collectChoices (recPair cs v))
        (collectChosen (recPair cs v)) = none := by
      rw [hsn, hcf, orphanChosen]
      rw [if_pos (by rw [lookupBase, if_pos rfl]; exact rfl)]
      rw [orphanChosen]
    simp only [horph]

theorem bindMultiValueField_single_oor (m : List (String × List String)) (pair : CCPair)
    (cfg : FieldConfig) (f : Field) (v0 : String) (vs : List String) (i : Int)
    (hm : pair.isMulti = false)
    (hl : lookupForm m cfg.Name = some (v0 :: vs))
    (hp : parseGoInt v0 = some i)
    (hoor : (i < 0 || (pair.choices.length : Int) ≤ i : Bool) = true) :
    bindMultiValueField m pair cfg f =
      .error ("vee: index " ++ formatInt i ++ " out of range for " ++
        formatNat pair.choices.length ++ " choices in field '" ++ cfg.Name ++ "'") := by
  rw [bindMultiValueField]
  simp only [hl, hm, Bool.false_eq_true, if_false, hp]
  rw [if_pos hoor]

theorem hasSub_msgIndexRange (v : Int) (n : Nat) :
    hasSub (msgIndexRange "FooChosen" v n)
      ("index " ++ formatInt v ++ " out of range for " ++ formatNat n ++ " choices") =
      true := by
  apply hasSub_of_eq_append _ "vee: field 'FooChosen' " _ ""
  rw [msgIndexRange]
  rw [show ("vee: field '" : String) ++ "FooChosen" ++ "' index " =
    "vee: field 'FooChosen' " ++ "index " from by decide]
  simp only [String.append_assoc, String.append_empty]

theorem hasSub_bindIdxMsg (i : Int) (n : Nat) :
    hasSub ("vee: index " ++ formatInt i ++ " out of range for " ++ formatNat n ++
        " choices in field '" ++ "foo_chosen" ++ "'")
      ("index " ++ formatInt i ++ " out of range for " ++ formatNat n ++ " choices") =
      true := by
  apply hasSub_of_eq_append _ "vee: " _ (" in field '" ++ "foo_chosen" ++ "'")
  rw [show ("vee: index " : String) = "vee: " ++ "index " from by decide,
    show (" choices in field '" : String) = " choices" ++ " in field '" from by decide]
  simp only [String.append_assoc]


/-- C4. Chosen index bounds: (1) every pair of any validated record has
all chosen indices in [0, len(choices)); (2) a record whose own chosen
index is out of range aborts Render and Bind with the same validation
error containing "index <i> out of range for <n> choices"; (3) an
out-of-range index supplied in external bind input to a well-formed
record is rejected with an equivalent error (containing the same phrase)
and the record is left unmutated — never silently clamped. -/
theorem claim_C4_index_bounds :
    (∀ (rec : List Field) (ps : List (String × CCPair)),
      validateChoicesChosen rec = .ok ps → ∀ bp ∈ ps, pairInRange bp.2 = true) ∧
    (∀ (cs : List String) (v : Int) (opts : RenderOption) (m : List (String × List String)),
      cs.length ≠ 0 → (v < 0 ∨ (cs.length : Int) ≤ v) →
      Render (recPair cs v) opts = .error (msgIndexRange "FooChosen" v cs.length) ∧
      Bind m (recPair cs v) = (some (msgIndexRange "FooChosen" v cs.length), recPair cs v) ∧
      hasSub (msgIndexRange "FooChosen" v cs.length)
        ("index " ++ formatInt v ++ " out of range for " ++ formatNat cs.length ++
          " choices") = true) ∧
    (∀ (cs : List String) (i : Int), cs.length ≠ 0 → int64Min ≤ i → i ≤ int64Max →
      (i < 0 ∨ (cs.length : Int) ≤ i) →
      ∃ e, Bind [("foo_chosen", [formatInt i])] (recPair cs 0) = (some e, recPair cs 0) ∧
        hasSub e ("index " ++ formatInt i ++ " out of range for " ++
          formatNat cs.length ++ " choices") = true) := by
  refine ⟨validate_ok_inRange, ?_, ?_⟩
  · intro cs v opts m hlen hoor
    have hb : (v < 0 || ((cs.length : Int) ≤ v) : Bool) = true := by
      rcases hoor with h | h
      · simp [h]
      · simp [h]
    have hval : validateChoicesChosen (recPair cs v) =
        .error (msgIndexRange "FooChosen" v cs.length) := by
      rw [validate_recPair_eq]
      simp only [checkPair_recPair_bad cs v hlen hb]
    have hh1 : hiddenFieldError ⟨"FooChoices", "", "", .strSlice cs⟩ = none := by
      simp only [hiddenFieldError]
      rw [show (parseVeeTag "" "FooChoices").Skip = false from by decide,
        if_neg Bool.false_ne_true,
        show (parseVeeTag "" "FooChoices").Hidden = false from by decide,
        if_neg Bool.false_ne_true]
    have hh2 : hiddenFieldError ⟨"FooChosen", "", "", .base (.vint v)⟩ = none := by
      simp only [hiddenFieldError]
      rw [show (parseVeeTag "" "FooChosen").Skip = false from by decide,
        if_neg Bool.false_ne_true,
        show (parseVeeTag "" "FooChosen").Hidden = false from by decide,
        if_neg Bool.false_ne_true]
    have hpre : hiddenPrePass (recPair cs v) = none := by
      rw [hiddenPrePass, recPair]
      simp only [List.findSome?_cons, hh1, hh2, List.findSome?_nil]
    exact ⟨Render_validate_error _ opts _ hpre hval,
      Bind_validate_error m _ _ hval, hasSub_msgIndexRange v cs.length⟩
  · intro cs i hlen h1 h2 hoor
    have hb : (i < 0 || ((cs.length : Int) ≤ i) : Bool) = true := by
      rcases hoor with h | h
      · simp [h]
      · simp [h]
    have hval : validateChoicesChosen (recPair cs 0) =
        .ok [("Foo", ⟨"FooChoices", "FooChosen", cs, .base (.vint 0), false⟩)] := by
      rw [validate_recPair_eq]
      simp only [checkPair_recPair_ok cs hlen]
    refine ⟨"vee: index " ++ formatInt i ++ " out of range for " ++
      formatNat cs.length ++ " choices in field '" ++ "foo_chosen" ++ "'", ?_,
      hasSub_bindIdxMsg i cs.length⟩
    rw [Bind]
    simp only [hval]
    rw [recPair, bindFields]
    have hbcf : bindField [("foo_chosen", [formatInt i])]
        [("Foo", (⟨"FooChoices", "FooChosen", cs, .base (.vint 0), false⟩ : CCPair))]
        ⟨"FooChoices", "", "", .strSlice cs⟩ =
        .ok ⟨"FooChoices", "", "", .strSlice cs⟩ :=
      bindField_choices _ _ _ "Foo" (show classifyName "FooChoices" = .choices "Foo" by decide)
    simp only [hbcf]
    rw [bindFields]
    have hcc : lookupCC
        [("Foo", (⟨"FooChoices", "FooChosen", cs, .base (.vint 0), false⟩ : CCPair))]
        "Foo" = some ⟨"FooChoices", "FooChosen", cs, .base (.vint 0), false⟩ := by
      rw [lookupCC, if_pos rfl]
    have hbsf : bindField [("foo_chosen", [formatInt i])]
        [("Foo", (⟨"FooChoices", "FooChosen", cs, .base (.vint 0), false⟩ : CCPair))]
        ⟨"FooChosen", "", "", .base (.vint 0)⟩ =
        .error ("vee: index " ++ formatInt i ++ " out of range for " ++
          formatNat cs.length ++ " choices in field '" ++ "foo_chosen" ++ "'") := by
      rw [bindField_chosen_pair _ _ _ "Foo"
        ⟨"FooChoices", "FooChosen", cs, .base (.vint 0), false⟩
        (show (parseVeeTag "" "FooChosen").Skip = false by decide)
        (show classifyName "FooChosen" = .chosen "Foo" by decide) hcc]
      exact bindMultiValueField_single_oor _ _ _ _ (formatInt i) [] i rfl
        (lookupForm_self _ _ _) (parseGoInt_formatInt i h1 h2) hb
    simp only [hbsf]

/-- C4 witness: choices ["Red", "Blue"] with chosen 5 errors in both
Render and Bind; binding "5" externally into a well-formed pair errors;
the validated record with chosen 1 is in range. -/
theorem claim_C4_witness :
    (∀ bp ∈ [("Foo", (⟨"FooChoices", "FooChosen", ["Red", "Blue"], .base (.vint 1),
        false⟩ : CCPair))], pairInRange bp.2 = true) ∧
    (Render (recPair ["Red", "Blue"] 5) {} = .error (msgIndexRange "FooChosen" 5 2) ∧
      Bind [] (recPair ["Red", "Blue"] 5) =
        (some (msgIndexRange "FooChosen" 5 2), recPair ["Red", "Blue"] 5) ∧
      hasSub (msgIndexRange "FooChosen" 5 2)
        ("index " ++ formatInt 5 ++ " out of range for " ++ formatNat 2 ++ " choices") =
        true) ∧
    (∃ e, Bind [("foo_chosen", [formatInt 5])] (recPair ["Red", "Blue"] 0) =
        (some e, recPair ["Red", "Blue"] 0) ∧
      hasSub e ("index " ++ formatInt 5 ++ " out of range for " ++ formatNat 2 ++
        " choices") = true) :=
  ⟨claim_C4_index_bounds.1 (recPair ["Red", "Blue"] 1)
      [("Foo", ⟨"FooChoices", "FooChosen", ["Red", "Blue"], .base (.vint 1), false⟩)]
      (by decide),
   claim_C4_index_bounds.2.1 ["Red", "Blue"] 5 {} [] (by decide) (by decide),
   claim_C4_index_bounds.2.2 ["Red", "Blue"] 5 (by decide) (by decide) (by decide)
     (by decide)⟩


/-! ## Supporting lemma: a present key writes a fresh pointee -/

theorem bindNormalField_present_ptr (m : List (String × List String)) (cfg : FieldConfig)
    (f : Field) (k : Kind) (ov : Option Value) (v : String) (rest : List String) (f' : Field)
    (hval : f.val = .ptr k ov)
    (hl : lookupForm m cfg.Name = some (v :: rest))
    (hbf : bindNormalField m cfg f = .ok f') :
    ∃ w : Value, f' = { f with val := .ptr k (some w) } := by
  have hk : f.val.kind? = some k := by rw [hval]; rfl
  rw [bindNormalField] at hbf
  cases k with
  | kstr =>
    simp only [hk, hl] at hbf
    refine ⟨.vstr v, ?_⟩
    rw [← (Except.ok.injEq _ _).mp hbf, hval]; rfl
  | kint =>
    simp only [hk, hl] at hbf
    cases hp : parseGoInt v with
    | none =>
      simp only [hp] at hbf
      exact Except.noConfusion hbf
    | some n =>
      simp only [hp] at hbf
      refine ⟨.vint n, ?_⟩
      rw [← (Except.ok.injEq _ _).mp hbf, hval]; rfl
  | kfloat =>
    simp only [hk, hl] at hbf
    cases hp : parseFloatRat v with
    | none =>
      simp only [hp] at hbf
      exact Except.noConfusion hbf
    | some q =>
      simp only [hp] at hbf
      refine ⟨.vfloat q, ?_⟩
      rw [← (Except.ok.injEq _ _).mp hbf, hval]; rfl
  | kbool =>
    simp only [hk] at hbf
    refine ⟨.vbool (match lookupForm m cfg.Name with
      | some (_ :: _) => true
      | _ => false), ?_⟩
    rw [← (Except.ok.injEq _ _).mp hbf, hval]; rfl
  | ktime =>
    simp only [hk, hl] at hbf
    cases hp : parseGoTime (timeInputType cfg) v with
    | none =>
      simp only [hp] at hbf
      exact Except.noConfusion hbf
    | some t =>
      simp only [hp] at hbf
      refine ⟨.vtime t, ?_⟩
      rw [← (Except.ok.injEq _ _).mp hbf, hval]; rfl
  | kdur =>
    simp only [hk, hl] at hbf
    cases hp : parseGoDuration cfg v with
    | none =>
      simp only [hp] at hbf
      exact Except.noConfusion hbf
    | some d =>
      simp only [hp] at hbf
      refine ⟨.vdur d, ?_⟩
      rw [← (Except.ok.injEq _ _).mp hbf, hval]; rfl

/-- C5. Absence leaves non-boolean fields untouched, presence allocates:
(1) for any record and input, a field (of any shape) whose external name
is absent from the input and whose kind is not boolean comes out of Bind
exactly as it went in, even when some other field errors; (2) on a
successful Bind, a non-skipped normally-named pointer field whose
external name is present with at least one value string comes out holding
a freshly allocated pointee (a some-value), even if it went in nil. -/
theorem claim_C5_absence_frame :
    (∀ (m : List (String × List String)) (rec : List Field) (i : Nat) (f : Field),
      rec[i]? = some f →
      lookupForm m (parseVeeTag f.tag f.name).Name = none →
      f.val.kind? ≠ some Kind.kbool →
      (Bind m rec).2[i]? = some f) ∧
    (∀ (m : List (String × List String)) (rec : List Field) (i : Nat) (f : Field)
      (k : Kind) (ov : Option Value) (v : String) (rest : List String),
      rec[i]? = some f → (Bind m rec).1 = none →
      (parseVeeTag f.tag f.name).Skip = false →
      classifyName f.name = .normal →
      f.val = .ptr k ov →
      lookupForm m (parseVeeTag f.tag f.name).Name = some (v :: rest) →
      ∃ w : Value, (Bind m rec).2[i]? = some { f with val := .ptr k (some w) }) := by
  constructor
  · intro m rec i f hg habs hk
    rw [Bind]
    cases hv : validateChoicesChosen rec with
    | error e => exact hg
    | ok pairs =>
      exact bindFields_get_unchanged m pairs rec i f hg
        (bindField_unchanged_of_absent m pairs f habs hk)
  · intro m rec i f k ov v rest hg hnone hskip hcls hval hl
    rw [Bind] at hnone ⊢
    cases hv : validateChoicesChosen rec with
    | error e =>
      rw [hv] at hnone
      exact Option.noConfusion hnone
    | ok pairs =>
      rw [hv] at hnone
      obtain ⟨f', hbf, hget⟩ := bindFields_get_ok m pairs rec hnone i f hg
      rw [bindField_normal m pairs f hskip hcls] at hbf
      obtain ⟨w, hw⟩ := bindNormalField_present_ptr m _ f k ov v rest f' hval hl hbf
      rw [hw] at hget
      exact ⟨w, hget⟩

/-- C5 witness: with the key absent a string field is untouched; with the
key present a nil pointer int field comes out allocated. -/
theorem claim_C5_witness :
    (Bind [("other", ["x"])] [⟨"Name", "", "", .base (.vstr "keep")⟩]).2[0]? =
      some ⟨"Name", "", "", .base (.vstr "keep")⟩ ∧
    ∃ w : Value, (Bind [("age", ["7"])] [⟨"Age", "", "", .ptr .kint none⟩]).2[0]? =
      some ⟨"Age", "", "", .ptr .kint (some w)⟩ :=
  ⟨claim_C5_absence_frame.1 [("other", ["x"])] [⟨"Name", "", "", .base (.vstr "keep")⟩] 0
      ⟨"Name", "", "", .base (.vstr "keep")⟩ rfl (by decide) (by decide),
   claim_C5_absence_frame.2 [("age", ["7"])] [⟨"Age", "", "", .ptr .kint none⟩] 0
      ⟨"Age", "", "", .ptr .kint none⟩ .kint none "7" [] rfl (by decide) (by decide)
      (by decide) rfl (by decide)⟩


/-- C6. Hidden-field incompatibility pre-pass: whenever a record contains
a non-skipped field marked hidden that is pointer-typed, slice-typed, or
has a Choices/Chosen name, Render fails outright (the pre-pass runs
before validation and before any markup is emitted), whatever the other
fields are. -/
theorem claim_C6_hidden_prepass :
    ∀ (rec : List Field) (opts : RenderOption) (f : Field),
      f ∈ rec →
      (parseVeeTag f.tag f.name).Skip = false →
      (parseVeeTag f.tag f.name).Hidden = true →
      ((∃ k ov, f.val = .ptr k ov) ∨ (∃ xs, f.val = .strSlice xs) ∨
        (∃ xs, f.val = .intSlice xs) ∨ strEndsWith f.name "Choices" = true ∨
        strEndsWith f.name "Chosen" = true) →
      ∃ e, Render rec opts = .error e := by
  intro rec opts f hmem hskip hh hbad
  obtain ⟨g, e, hgmem, hge, hfind⟩ := findSome?_of_mem rec hiddenFieldError f hmem
    (hiddenFieldError_isSome f hskip hh hbad)
  exact ⟨e, Render_hidden_error rec opts e hfind⟩

/-- C6 witness: a hidden pointer field makes Render fail even though the
other field would render fine. -/
theorem claim_C6_witness :
    ∃ e, Render [⟨"P", "hidden", "", .ptr .kstr none⟩, ⟨"Q", "", "", .base (.vstr "ok")⟩]
      {} = .error e :=
  claim_C6_hidden_prepass
    [⟨"P", "hidden", "", .ptr .kstr none⟩, ⟨"Q", "", "", .base (.vstr "ok")⟩] {}
    ⟨"P", "hidden", "", .ptr .kstr none⟩ (by decide) (by decide) (by decide)
    (.inl ⟨.kstr, none, rfl⟩)


set_option maxRecDepth 8192 in
/-- C7. Temporal zero-value suppression: (1) an instant control whose
value is the zero time, or whose field is a nil pointer, is rendered with
no value attribute (the exact no-value template); (2) likewise a zero or
nil duration; (3) a non-nil nonzero instant control does carry a value
attribute, (4) likewise a nonzero duration; (5) a nil pointer of any
non-temporal kind renders exactly like the kind's zero value; (6) the
string, int, float and bool controls always carry a value attribute;
(7) a whole form of zero/nil temporal fields renders successfully with no
value attribute anywhere in its markup. -/
theorem claim_C7_temporal_suppression :
    (∀ (cfg : FieldConfig) (css n : String) (isPtr isNil : Bool) (t : GoTime),
      (isPtr = true ∧ isNil = true) ∨ t = zeroTime →
      renderTimeField cfg css n isPtr isNil t =
        renderLabel cfg n ++ "<input type=\"" ++ timeInputType cfg ++ "\"" ++
          " name=\"" ++ cfg.Name ++ "\"" ++ attrStr cfg "min" ++ attrStr cfg "max" ++
          classStr css ++ universalAttrs cfg ++ ">\n") ∧
    (∀ (cfg : FieldConfig) (css n : String) (isPtr isNil : Bool) (d : Int),
      (isPtr = true ∧ isNil = true) ∨ d = 0 →
      renderDurField cfg css n isPtr isNil d =
        renderLabel cfg n ++ "<input type=\"number\"" ++
          " name=\"" ++ cfg.Name ++ "\"" ++ attrStr cfg "min" ++ attrStr cfg "max" ++
          attrStr cfg "step" ++ classStr css ++ universalAttrs cfg ++ ">\n") ∧
    (∀ (cfg : FieldConfig) (css n : String) (isPtr isNil : Bool) (t : GoTime),
      (isPtr = false ∨ isNil = false) → t ≠ zeroTime →
      hasSub (renderTimeField cfg css n isPtr isNil t) " value=\"" = true) ∧
    (∀ (cfg : FieldConfig) (css n : String) (isPtr isNil : Bool) (d : Int),
      (isPtr = false ∨ isNil = false) → d ≠ 0 →
      hasSub (renderDurField cfg css n isPtr isNil d) " value=\"" = true) ∧
    (∀ (pairs : List (String × CCPair)) (opts : RenderOption) (f : Field) (k : Kind),
      classifyName f.name = .normal →
      (parseVeeTag f.tag f.name).Hidden = false →
      k ≠ .ktime → k ≠ .kdur → f.val = .ptr k none →
      renderField pairs opts f = renderField pairs opts { f with val := .base k.zero }) ∧
    (∀ (cfg : FieldConfig) (css n : String),
      (∀ s, hasSub (renderStrField cfg css n s) " value=\"" = true) ∧
      (∀ i : Int, hasSub (renderIntField cfg css n i) " value=\"" = true) ∧
      (∀ q : Rat, hasSub (renderFloatField cfg css n q) " value=\"" = true) ∧
      (∀ b : Bool, hasSub (renderBoolField cfg css n b) " value=\"" = true)) ∧
    ((match Render [⟨"When", "", "", .base (.vtime zeroTime)⟩,
        ⟨"Dur", "", "", .base (.vdur 0)⟩, ⟨"Opt", "", "", .ptr .ktime none⟩] {} with
      | .ok s => !(hasSub s " value=\"")
      | .error _ => false) = true) := by
  refine ⟨?_, ?_, ?_, ?_, ?_, ?_, by decide⟩
  · intro cfg css n isPtr isNil t h
    have hneg : ¬((¬isPtr = true ∨ ¬isNil = true) ∧ t ≠ zeroTime) := by
      rcases h with ⟨hp, hn⟩ | hz
      · exact fun hc => hc.1.elim (fun h1 => h1 hp) (fun h2 => h2 hn)
      · exact fun hc => hc.2 hz
    simp only [renderTimeField]
    rw [if_neg hneg, String.append_empty]
  · intro cfg css n isPtr isNil d h
    have hneg : ¬((¬isPtr = true ∨ ¬isNil = true) ∧ d ≠ 0) := by
      rcases h with ⟨hp, hn⟩ | hz
      · exact fun hc => hc.1.elim (fun h1 => h1 hp) (fun h2 => h2 hn)
      · exact fun hc => hc.2 hz
    simp only [renderDurField]
    rw [if_neg hneg, String.append_empty]
  · intro cfg css n isPtr isNil t hp ht
    have hcond : (¬isPtr = true ∨ ¬isNil = true) ∧ t ≠ zeroTime :=
      ⟨hp.imp (fun h => by simp [h]) (fun h => by simp [h]), ht⟩
    refine hasSub_of_eq_append _
      (renderLabel cfg n ++ "<input type=\"" ++ timeInputType cfg ++ "\"" ++
        " name=\"" ++ cfg.Name ++ "\"") _
      (escapeHTML (formatTimeInput (timeInputType cfg) t) ++ "\"" ++
        attrStr cfg "min" ++ attrStr cfg "max" ++ classStr css ++
        universalAttrs cfg ++ ">\n") ?_
    simp only [renderTimeField]
    rw [if_pos hcond]
    simp only [String.append_assoc]
  · intro cfg css n isPtr isNil d hp hd
    have hcond : (¬isPtr = true ∨ ¬isNil = true) ∧ d ≠ 0 :=
      ⟨hp.imp (fun h => by simp [h]) (fun h => by simp [h]), hd⟩
    refine hasSub_of_eq_append _
      (renderLabel cfg n ++ "<input type=\"number\"" ++ " name=\"" ++ cfg.Name ++ "\"") _
      (formatDurVal d (durUnits cfg) ++ "\"" ++ attrStr cfg "min" ++ attrStr cfg "max" ++
        attrStr cfg "step" ++ classStr css ++ universalAttrs cfg ++ ">\n") ?_
    simp only [renderDurField]
    rw [if_pos hcond]
    simp only [String.append_assoc]
  · intro pairs opts f k hcls hhid hkt hkd hval
    obtain ⟨nm, tg, ct, vv⟩ := f
    have hv2 : vv = .ptr k none := hval
    subst hv2
    have hcls2 : classifyName nm = FClass.normal := hcls
    have hh2 : (parseVeeTag tg nm).Hidden = false := hhid
    simp only [renderField]
    by_cases hs : (parseVeeTag tg nm).Skip = true
    · rw [if_pos hs, if_pos hs]
    · rw [if_neg hs, if_neg hs]
      simp only [hcls2, hh2, Bool.false_eq_true, if_false]
      cases k with
      | ktime => exact absurd rfl hkt
      | kdur => exact absurd rfl hkd
      | kstr => rfl
      | kint => rfl
      | kfloat => rfl
      | kbool => rfl
  · intro cfg css n
    refine ⟨?_, ?_, ?_, ?_⟩
    · intro s
      refine hasSub_of_eq_append _
        (renderLabel cfg n ++ "<input type=\"" ++ strInputType cfg ++ "\"" ++
          " name=\"" ++ cfg.Name ++ "\"") _
        (escapeHTML s ++ "\"" ++ classStr css ++ universalAttrs cfg ++ ">\n") ?_
      simp only [renderStrField]
      simp only [String.append_assoc]
    · intro i
      refine hasSub_of_eq_append _
        (renderLabel cfg n ++ "<input type=\"number\"" ++ " name=\"" ++ cfg.Name ++ "\"") _
        (formatInt i ++ "\"" ++ attrStr cfg "min" ++ attrStr cfg "max" ++
          attrStr cfg "step" ++ classStr css ++ universalAttrs cfg ++ ">\n") ?_
      simp only [renderIntField]
      simp only [String.append_assoc]
    · intro q
      refine hasSub_of_eq_append _
        (renderLabel cfg n ++ "<input type=\"number\"" ++ " name=\"" ++ cfg.Name ++ "\"") _
        (formatFloatG q ++ "\"" ++ attrStr cfg "min" ++ attrStr cfg "max" ++
          (if (getAttr cfg.Attributes "step").isSome then attrStr cfg "step"
            else " step=\"any\"") ++ classStr css ++ universalAttrs cfg ++ ">\n") ?_
      simp only [renderFloatField]
      simp only [String.append_assoc]
    · intro b
      refine hasSub_of_eq_append _
        (renderLabel cfg n ++ "<input type=\"checkbox\"" ++ " name=\"" ++
          cfg.Name ++ "\"") _
        ("true\"" ++ (if b then " checked" else "") ++ classStr css ++
          universalAttrs cfg ++ ">\n") ?_
      simp only [renderBoolField]
      rw [show (" value=\"true\"" : String) = " value=\"" ++ "true\"" from by decide]
      simp only [String.append_assoc]

/-- C7 witness: the suppression and presence statements at concrete
inputs of each shape. -/
theorem claim_C7_witness :
    (renderTimeField (parseVeeTag "" "When") "" "When" false false zeroTime =
      renderLabel (parseVeeTag "" "When") "When" ++ "<input type=\"" ++
        timeInputType (parseVeeTag "" "When") ++ "\"" ++ " name=\"" ++
        (parseVeeTag "" "When").Name ++ "\"" ++ attrStr (parseVeeTag "" "When") "min" ++
        attrStr (parseVeeTag "" "When") "max" ++ classStr "" ++
        universalAttrs (parseVeeTag "" "When") ++ ">\n") ∧
    (renderDurField (parseVeeTag "" "Dur") "" "Dur" true true 5 =
      renderLabel (parseVeeTag "" "Dur") "Dur" ++ "<input type=\"number\"" ++
        " name=\"" ++ (parseVeeTag "" "Dur").Name ++ "\"" ++
        attrStr (parseVeeTag "" "Dur") "min" ++ attrStr (parseVeeTag "" "Dur") "max" ++
        attrStr (parseVeeTag "" "Dur") "step" ++ classStr "" ++
        universalAttrs (parseVeeTag "" "Dur") ++ ">\n") ∧
    hasSub (renderTimeField (parseVeeTag "" "When") "" "When" false false
      ⟨2023, 12, 25, 14, 30, 0, 0⟩) " value=\"" = true ∧
    hasSub (renderDurField (parseVeeTag "" "Dur") "" "Dur" false false 90)
      " value=\"" = true ∧
    renderField [] {} ⟨"Age", "", "", .ptr .kint none⟩ =
      renderField [] {} ⟨"Age", "", "", .base (.vint 0)⟩ ∧
    hasSub (renderStrField (parseVeeTag "" "Name") "" "Name" "") " value=\"" = true :=
  ⟨claim_C7_temporal_suppression.1 (parseVeeTag "" "When") "" "When" false false zeroTime
      (Or.inr rfl),
   claim_C7_temporal_suppression.2.1 (parseVeeTag "" "Dur") "" "Dur" true true 5
      (Or.inl ⟨rfl, rfl⟩),
   claim_C7_temporal_suppression.2.2.1 (parseVeeTag "" "When") "" "When" false false
      ⟨2023, 12, 25, 14, 30, 0, 0⟩ (Or.inl rfl) (by decide),
   claim_C7_temporal_suppression.2.2.2.1 (parseVeeTag "" "Dur") "" "Dur" false false 90
      (Or.inl rfl) (by decide),
   claim_C7_temporal_suppression.2.2.2.2.1 [] {} ⟨"Age", "", "", .ptr .kint none⟩ .kint
      (by decide) (by decide) (by decide) (by decide) rfl,
   (claim_C7_temporal_suppression.2.2.2.2.2.1 (parseVeeTag "" "Name") "" "Name").1 ""⟩


/-! ## Supporting lemma: the shape of a nontrivial tag parse -/

theorem parseVeeTag_general (tag fn : String) (h1 : tag ≠ "") (h2 : tag ≠ "-") :
    parseVeeTag tag fn = (tagRest tag).foldl applyTagPart
      ⟨(match strSplitComma tag with
        | [] => toSnake fn
        | p :: _ => if strStartsWith p "$" then p.drop 1 else toSnake fn),
        false, false, false, []⟩ := by
  rw [parseVeeTag, if_neg h1, if_neg h2, tagRest]
  cases hp : strSplitComma tag with
  | nil => simp only [hp]
  | cons p ps =>
    simp only [hp]
    by_cases hd : strStartsWith p "$" = true
    · rw [if_pos hd, if_pos hd, if_pos hd]
    · rw [if_neg hd, if_neg hd, if_neg hd]

/-- C8. Metadata parser contract (the snake_case conversion is modelled
from the spec, its code being an external dependency): the empty tag
yields the snake_cased declared name with no flags and no attributes; the
sentinel "-" yields skip with nothing else populated; otherwise the
external name is the first comma segment stripped of a leading "$"
(verbatim, no case conversion) when that marker is present, else the
snake_cased declared name; nolabel/hidden hold exactly when some
remaining segment trims to that flag; attribute lookup equals first-match
lookup in the reversed list of parsed segments (so duplicate keys resolve
last-write-wins), a segment parsing as trimmed key, quote-stripped
trimmed value for key:value, a zero-value entry for other bare words, and
nothing for nolabel/hidden/empty segments. -/
theorem claim_C8_tag_contract :
    (∀ fn, parseVeeTag "" fn = ⟨toSnake fn, false, false, false, []⟩) ∧
    (∀ fn, parseVeeTag "-" fn = ⟨"", true, false, false, []⟩) ∧
    (∀ tag fn, tag ≠ "" → tag ≠ "-" →
      (parseVeeTag tag fn).Name =
        (match strSplitComma tag with
         | [] => toSnake fn
         | p :: _ => if strStartsWith p "$" then p.drop 1 else toSnake fn)) ∧
    (∀ tag fn, tag ≠ "" → tag ≠ "-" →
      (parseVeeTag tag fn).NoLabel =
        (tagRest tag).any (fun p => strTrim p == "nolabel")) ∧
    (∀ tag fn, tag ≠ "" → tag ≠ "-" →
      (parseVeeTag tag fn).Hidden =
        (tagRest tag).any (fun p => strTrim p == "hidden")) ∧
    (∀ tag fn key, tag ≠ "" → tag ≠ "-" →
      getAttr (parseVeeTag tag fn).Attributes key =
        getAttr ((tagRest tag).filterMap specSegmentAttr).reverse key) ∧
    (specSegmentAttr "required" = some ("required", "") ∧
     specSegmentAttr "readonly" = some ("readonly", "") ∧
     specSegmentAttr "disabled" = some ("disabled", "") ∧
     specSegmentAttr "type:'email'" = some ("type", "email") ∧
     specSegmentAttr "placeholder:'Enter name'" = some ("placeholder", "Enter name") ∧
     specSegmentAttr "nolabel" = none ∧
     specSegmentAttr "hidden" = none ∧
     getAttr (parseVeeTag "min:1,min:2" "F").Attributes "min" = some "2") := by
  refine ⟨fun fn => rfl, fun fn => rfl, ?_, ?_, ?_, ?_,
    by decide, by decide, by decide, by decide, by decide, by decide, by decide, by decide⟩
  · intro tag fn h1 h2
    rw [parseVeeTag_general tag fn h1 h2, foldl_applyTagPart_Name]
  · intro tag fn h1 h2
    rw [parseVeeTag_general tag fn h1 h2, foldl_applyTagPart_NoLabel]
    exact Bool.false_or _
  · intro tag fn h1 h2
    rw [parseVeeTag_general tag fn h1 h2, foldl_applyTagPart_Hidden]
    exact Bool.false_or _
  · intro tag fn key h1 h2
    rw [parseVeeTag_general tag fn h1 h2, foldl_applyTagPart_attrs]
    cases hg : getAttr ((tagRest tag).filterMap specSegmentAttr).reverse key with
    | some v => rfl
    | none => rfl

/-- C8 witness: the parser contract at concrete tags exercising the name
override, the flags and duplicate attribute keys. -/
theorem claim_C8_witness :
    parseVeeTag "" "UserName" = ⟨toSnake "UserName", false, false, false, []⟩ ∧
    parseVeeTag "-" "UserName" = ⟨"", true, false, false, []⟩ ∧
    (parseVeeTag "$uid,nolabel,min:1,min:2" "UserName").Name =
      (match strSplitComma "$uid,nolabel,min:1,min:2" with
       | [] => toSnake "UserName"
       | p :: _ => if strStartsWith p "$" then p.drop 1 else toSnake "UserName") ∧
    (parseVeeTag "$uid,nolabel,min:1,min:2" "UserName").NoLabel =
      (tagRest "$uid,nolabel,min:1,min:2").any (fun p => strTrim p == "nolabel") ∧
    (parseVeeTag "hidden" "UserName").Hidden =
      (tagRest "hidden").any (fun p => strTrim p == "hidden") ∧
    getAttr (parseVeeTag "$uid,nolabel,min:1,min:2" "UserName").Attributes "min" =
      getAttr ((tagRest "$uid,nolabel,min:1,min:2").filterMap
        specSegmentAttr).reverse "min" :=
  ⟨claim_C8_tag_contract.1 "UserName", claim_C8_tag_contract.2.1 "UserName",
   claim_C8_tag_contract.2.2.1 _ _ (by decide) (by decide),
   claim_C8_tag_contract.2.2.2.1 _ _ (by decide) (by decide),
   claim_C8_tag_contract.2.2.2.2.1 _ _ (by decide) (by decide),
   claim_C8_tag_contract.2.2.2.2.2.1 _ _ "min" (by decide) (by decide)⟩


/-- C9, amended. Escaping covers field values, label text (and the label's
for-target), and attribute contents — but not every user-supplied string:
the name attribute (the field's external name) and the form method are
emitted raw. (1) A full render of a string field passes the value through
escapeHTML while the name attribute is spliced verbatim; (2) a present
attribute renders with escapeHTML around its value; (3) a rendered label
escapes both the id it points at and the label text; (4) the form header
emits the method without escaping; (5) the escape primitive rewrites
exactly &, <, > and the double quote. -/
theorem claim_C9_escaping :
    (∀ s : String, Render [⟨"UserName", "", "", .base (.vstr s)⟩] {} =
      .ok ("<form method=\"POST\">\n" ++
        ("<label for=\"user_name\">User Name</label>\n<input type=\"text\" name=\"user_name\" value=\"" ++
          escapeHTML s ++ "\"" ++ " id=\"user_name\"" ++ ">\n") ++ "</form>\n")) ∧
    (∀ (cfg : FieldConfig) (key v : String), getAttr cfg.Attributes key = some v →
      attrStr cfg key = " " ++ key ++ "=\"" ++ escapeHTML v ++ "\"") ∧
    (∀ (cfg : FieldConfig) (fn : String), cfg.NoLabel = false →
      renderLabel cfg fn = "<label for=\"" ++
        escapeHTML (match getAttr cfg.Attributes "id" with
          | some customID => customID
          | none => cfg.Name) ++ "\">" ++
        escapeHTML (generateLabel cfg fn) ++ "</label>\n") ∧
    (∀ opts : RenderOption, opts.FormID = "" → opts.FormCSS = "" →
      opts.FormAction = "" → opts.FormMethod ≠ "" →
      formHeader opts = "<form" ++ " method=\"" ++ opts.FormMethod ++ "\"" ++ ">\n") ∧
    (escapeHTML "&" = "&amp;" ∧ escapeHTML "<" = "&lt;" ∧ escapeHTML ">" = "&gt;" ∧
      escapeHTML "\"" = "&quot;" ∧ escapeHTML "plain" = "plain") := by
  refine ⟨?_, ?_, ?_, ?_, by decide, by decide, by decide, by decide, by decide⟩
  · intro s
    have hstr : renderStrField (parseVeeTag "" "UserName") "" "UserName" s =
        "<label for=\"user_name\">User Name</label>\n<input type=\"text\" name=\"user_name\" value=\"" ++
          escapeHTML s ++ "\"" ++ " id=\"user_name\"" ++ ">\n" := by
      rw [renderStrField,
        show renderLabel (parseVeeTag "" "UserName") "UserName" =
          "<label for=\"user_name\">User Name</label>\n" from by decide,
        show strInputType (parseVeeTag "" "UserName") = "text" from by decide,
        show (parseVeeTag "" "UserName").Name = "user_name" from by decide,
        show classStr "" = "" from by decide,
        show universalAttrs (parseVeeTag "" "UserName") = " id=\"user_name\"" from by decide,
        String.append_empty,
        show ("<label for=\"user_name\">User Name</label>\n" ++ "<input type=\"" ++
          "text" ++ "\"" ++ " name=\"" ++ "user_name" ++ "\"" ++ " value=\"" : String) =
          "<label for=\"user_name\">User Name</label>\n<input type=\"text\" name=\"user_name\" value=\"" from by decide]
    have hrf : renderField [] {} ⟨"UserName", "", "", .base (.vstr s)⟩ =
        .ok (renderStrField (parseVeeTag "" "UserName") "" "UserName" s) := rfl
    have hrfs : renderFields [] {} [⟨"UserName", "", "", .base (.vstr s)⟩] =
        .ok ("<label for=\"user_name\">User Name</label>\n<input type=\"text\" name=\"user_name\" value=\"" ++
          escapeHTML s ++ "\"" ++ " id=\"user_name\"" ++ ">\n") := by
      rw [renderFields, hrf, hstr, renderFields]
      simp only [String.append_empty]
    have hval : validateChoicesChosen [(⟨"UserName", "", "", .base (.vstr s)⟩ : Field)] =
        .ok [] :=
      validate_single_normal _ (show classifyName "UserName" = .normal from by decide)
    have hpre : hiddenPrePass [(⟨"UserName", "", "", .base (.vstr s)⟩ : Field)] =
        none := rfl
    rw [Render]
    simp only [hpre, hval, hrfs]
    rw [show formHeader {} = "<form method=\"POST\">\n" from by decide]
  · intro cfg key v h
    rw [attrStr]
    simp only [h]
  · intro cfg fn h
    rw [renderLabel, if_neg (by simp [h])]
  · intro opts hid hcss hact hm
    rw [formHeader]
    rw [if_neg (show ¬opts.FormID ≠ "" from by simp [hid]),
      if_neg (show ¬opts.FormCSS ≠ "" from by simp [hcss]),
      if_pos (show opts.FormAction ≠ "script" from by rw [hact]; decide),
      if_neg hm,
      if_neg (show ¬opts.FormAction ≠ "" from by simp [hact]),
      String.append_empty, String.append_empty, String.append_empty]
    simp only [String.append_assoc]

/-- C9 counterexample: the name attribute is not escaped — a tag-supplied
external name containing a double quote is spliced raw into the markup
(escapeHTML would have produced a&quot;b). -/
theorem claim_C9_counterexample :
    (match Render [⟨"A", "$a\"b", "", .base (.vstr "v")⟩] {} with
      | .ok s => hasSub s "name=\"a\"b\""
      | .error _ => false) = true ∧
    escapeHTML "a\"b" = "a&quot;b" := by
  constructor
  · decide
  · decide

/-- C9 witness: the amended statement at a value, an attribute, a label
and a method needing escaping or emitted raw. -/
theorem claim_C9_witness :
    Render [⟨"UserName", "", "", .base (.vstr "Jo & <b>\"x\"")⟩] {} =
      .ok ("<form method=\"POST\">\n" ++
        ("<label for=\"user_name\">User Name</label>\n<input type=\"text\" name=\"user_name\" value=\"" ++
          escapeHTML "Jo & <b>\"x\"" ++ "\"" ++ " id=\"user_name\"" ++ ">\n") ++
        "</form>\n") ∧
    attrStr (parseVeeTag "placeholder:'a<b'" "F") "placeholder" =
      " " ++ "placeholder" ++ "=\"" ++ escapeHTML "a<b" ++ "\"" ∧
    renderLabel (parseVeeTag "" "UserName") "UserName" = "<label for=\"" ++
      escapeHTML (match getAttr (parseVeeTag "" "UserName").Attributes "id" with
        | some customID => customID
        | none => (parseVeeTag "" "UserName").Name) ++ "\">" ++
      escapeHTML (generateLabel (parseVeeTag "" "UserName") "UserName") ++
      "</label>\n" ∧
    formHeader ⟨"", "", "", "GET", ""⟩ =
      "<form" ++ " method=\"" ++ ("GET" : String) ++ "\"" ++ ">\n" :=
  ⟨claim_C9_escaping.1 "Jo & <b>\"x\"",
   claim_C9_escaping.2.1 (parseVeeTag "placeholder:'a<b'" "F") "placeholder" "a<b"
     (by decide),
   claim_C9_escaping.2.2.1 (parseVeeTag "" "UserName") "UserName" (by decide),
   claim_C9_escaping.2.2.2.1 ⟨"", "", "", "GET", ""⟩ rfl rfl rfl (by decide)⟩


/-- C10. Choices/Chosen validation ignores field metadata entirely:
retagging every field (any tag, any css tag — including the skip
sentinel) leaves the validation verdict unchanged; a validation error
aborts the whole Bind (no mutation) and the whole Render (after the
hidden pre-pass, no markup); and concretely a mispaired record whose two
fields are both tagged "-" still aborts Render and Bind with the
index-range error even though each field by itself would be skipped by
the render and bind loops. -/
theorem claim_C10_validation_ignores_metadata :
    (∀ (g h : Field → String) (rec : List Field),
      validateChoicesChosen (rec.map (retagField g h)) = validateChoicesChosen rec) ∧
    (∀ (m : List (String × List String)) (rec : List Field) (e : String),
      validateChoicesChosen rec = .error e → Bind m rec = (some e, rec)) ∧
    (∀ (rec : List Field) (opts : RenderOption) (e : String), hiddenPrePass rec = none →
      validateChoicesChosen rec = .error e → Render rec opts = .error e) ∧
    (validateChoicesChosen [⟨"FooChoices", "-", "", .strSlice ["Red", "Blue"]⟩,
        ⟨"FooChosen", "-", "", .base (.vint 5)⟩] =
      .error (msgIndexRange "FooChosen" 5 2) ∧
     Render [⟨"FooChoices", "-", "", .strSlice ["Red", "Blue"]⟩,
        ⟨"FooChosen", "-", "", .base (.vint 5)⟩] {} =
      .error (msgIndexRange "FooChosen" 5 2) ∧
     Bind [] [⟨"FooChoices", "-", "", .strSlice ["Red", "Blue"]⟩,
        ⟨"FooChosen", "-", "", .base (.vint 5)⟩] =
      (some (msgIndexRange "FooChosen" 5 2),
       [⟨"FooChoices", "-", "", .strSlice ["Red", "Blue"]⟩,
        ⟨"FooChosen", "-", "", .base (.vint 5)⟩]) ∧
     renderField [] {} ⟨"FooChoices", "-", "", .strSlice ["Red", "Blue"]⟩ = .ok "" ∧
     bindField [] [] ⟨"FooChosen", "-", "", .base (.vint 5)⟩ =
       .ok ⟨"FooChosen", "-", "", .base (.vint 5)⟩) :=
  ⟨validate_retag, Bind_validate_error, Render_validate_error,
   by decide, by decide, by decide, by decide, by decide⟩

/-- C10 witness: retagging a mispaired record (skip on every field) keeps
the verdict; an orphan Chosen aborts Bind and Render with the
missing-counterpart message. -/
theorem claim_C10_witness :
    validateChoicesChosen ((recPair ["Red", "Blue"] 5).map
        (retagField (fun _ => "-") (fun _ => "x"))) =
      validateChoicesChosen (recPair ["Red", "Blue"] 5) ∧
    Bind [("a", ["b"])] [⟨"BarChosen", "", "", .base (.vint 0)⟩] =
      (some (msgNeedsChoices ⟨"BarChosen", "", "", .base (.vint 0)⟩ "Bar"),
       [⟨"BarChosen", "", "", .base (.vint 0)⟩]) ∧
    Render [⟨"BarChosen", "", "", .base (.vint 0)⟩] {} =
      .error (msgNeedsChoices ⟨"BarChosen", "", "", .base (.vint 0)⟩ "Bar") :=
  ⟨claim_C10_validation_ignores_metadata.1 (fun _ => "-") (fun _ => "x")
      (recPair ["Red", "Blue"] 5),
   claim_C10_validation_ignores_metadata.2.1 [("a", ["b"])]
      [⟨"BarChosen", "", "", .base (.vint 0)⟩]
      (msgNeedsChoices ⟨"BarChosen", "", "", .base (.vint 0)⟩ "Bar") (by decide),
   claim_C10_validation_ignores_metadata.2.2.1 [⟨"BarChosen", "", "", .base (.vint 0)⟩]
      {} (msgNeedsChoices ⟨"BarChosen", "", "", .base (.vint 0)⟩ "Bar") rfl (by decide)⟩

end Vee
